import Mathlib

/-!
# Verification of the MCP client/server query-processing loop

This file is a shallow embedding, in Lean 4, of the query-processing
orchestration of `client.py` (`MCPClient.process_query`) and of the four
tool handlers of `server.py`, together with theorems settling the frozen
claims about them.

Modelling conventions:

* Python/JSON values are modelled by the inductive type `Json`
  (`dict` as an insertion-ordered association list, `None` as `Json.null`).
  JSON numbers are modelled as integers (`Int`); floating point is out of
  scope of the embedding.
* `json.dumps` is modelled by `dumps` (default separators) and
  `dumpsIndent2` (`indent=2`), `json.loads` by `loads`, a fuel-based
  recursive-descent parser.  The printer performs the mandatory escapes
  (`"`'`, `\`, control characters); the `ensure_ascii` transformation of
  non-ASCII characters is not modelled (it does not affect any claim).
* Python exceptions are modelled as values of type `PyExn` (the exception's
  message); fallible steps return `Except PyExn α` and `try/except` blocks
  are translated to explicit matches on those values.
* The collaborators of `process_query` (the remote tool process and the
  HTTP completion endpoint) are modelled by an `Env` of oracles, indexed by
  the number of calls made so far to the corresponding collaborator, so a
  universally quantified `Env` covers every behaviour of the collaborators.
-/

/-- JSON / Python values: `null` is Python `None`, `obj` is a `dict` as an
insertion-ordered association list.  Numbers are modelled as integers. -/
inductive Json where
  | null : Json
  | bool (b : Bool) : Json
  | num (n : Int) : Json
  | str (s : String) : Json
  | arr (items : List Json) : Json
  | obj (fields : List (String × Json)) : Json

abbrev PyExn := String

/-! ## Python semantics helpers -/

/-- Python truthiness of a JSON value (`bool(x)`). -/
def truthy : Json → Bool
  | .null => false
  | .bool b => b
  | .num n => n != 0
  | .str s => s != ""
  | .arr l => !l.isEmpty
  | .obj l => !l.isEmpty

/-- First binding of a key in an association list (`dict` lookup). -/
def alookup : List (String × Json) → String → Option Json
  | [], _ => none
  | (k, v) :: rest, key => if k = key then some v else alookup rest key

/-- Python `x.get(key, dflt)`: raises `AttributeError` unless `x` is a dict. -/
def pyGet (j : Json) (key : String) (dflt : Json) : Except PyExn Json :=
  match j with
  | .obj l => .ok ((alookup l key).getD dflt)
  | _ => .error "AttributeError: 'object' has no attribute 'get'"

/-- Python `x[key]` with a string key: `KeyError` on a missing dict key,
`TypeError` on non-dict containers. -/
def pyGetItemS (j : Json) (key : String) : Except PyExn Json :=
  match j with
  | .obj l =>
    match alookup l key with
    | some v => .ok v
    | none => .error ("KeyError: " ++ key)
  | _ => .error "TypeError: indices must not be str"

/-- Python `x[i]` with an integer index. -/
def pyGetItemIdx (j : Json) (i : Nat) : Except PyExn Json :=
  match j with
  | .arr l =>
    match l.get? i with
    | some v => .ok v
    | none => .error "IndexError: list index out of range"
  | .str s =>
    match s.data.get? i with
    | some c => .ok (.str (String.mk [c]))
    | none => .error "IndexError: string index out of range"
  | .obj _ => .error "KeyError: int key"
  | _ => .error "TypeError: object is not subscriptable"

/-- Python iteration over a value (`for x in v`): lists yield elements,
strings yield one-character strings, dicts yield their keys. -/
def pyIter (j : Json) : Except PyExn (List Json) :=
  match j with
  | .arr l => .ok l
  | .str s => .ok (s.data.map (fun c => .str (String.mk [c])))
  | .obj l => .ok (l.map (fun kv => .str kv.1))
  | _ => .error "TypeError: object is not iterable"

/-- Python `v == s` where `s` is a `str`: equal only to the same string. -/
def strEqJson (s : String) : Json → Bool
  | .str t => s == t
  | _ => false

/-! ## `json.dumps`: printing -/

/-- Hex digit character (lowercase, as produced by Python's escapes). -/
def hexDigitChar (d : Nat) : Char :=
  if d < 10 then Char.ofNat (48 + d) else Char.ofNat (87 + d)

/-- Decimal digit character. -/
def digitChar (d : Nat) : Char := Char.ofNat (48 + d)

/-- Decimal digits (most significant first) of a natural number, with fuel. -/
def natCharsAux : Nat → Nat → List Char
  | 0, _ => []
  | fuel + 1, n =>
    if n < 10 then [digitChar n]
    else natCharsAux fuel (n / 10) ++ [digitChar (n % 10)]

def natChars (n : Nat) : List Char := natCharsAux (n + 1) n

/-- Decimal rendering of an integer, as Python's `str`/`json.dumps`. -/
def intChars (n : Int) : List Char :=
  if n < 0 then '-' :: natChars (-n).toNat else natChars n.toNat

/-- JSON string escaping of one character, as `json.dumps` (without the
`ensure_ascii` transformation of non-ASCII characters). -/
def escChar (c : Char) : List Char :=
  if c = '"' then ['\\', '"']
  else if c = '\\' then ['\\', '\\']
  else if c = '\n' then ['\\', 'n']
  else if c = '\t' then ['\\', 't']
  else if c = '\r' then ['\\', 'r']
  else if c.toNat = 8 then ['\\', 'b']
  else if c.toNat = 12 then ['\\', 'f']
  else if c.toNat < 32 then
    ['\\', 'u', '0', '0', hexDigitChar (c.toNat / 16), hexDigitChar (c.toNat % 16)]
  else [c]

def escStr : List Char → List Char
  | [] => []
  | c :: cs => escChar c ++ escStr cs

/-- A quoted, escaped JSON string literal. -/
def strChars (s : String) : List Char := '"' :: (escStr s.data ++ ['"'])

/-- `2*lvl` spaces of indentation (`indent=2`). -/
def indentChars (lvl : Nat) : List Char := List.replicate (2 * lvl) ' '

/-- Leading characters of one array/object item: the indentation when
pretty-printing, nothing in compact mode. -/
def itemLead (pretty : Bool) (lvl : Nat) : List Char :=
  if pretty then indentChars lvl else []

/-- Separator between items: `",\n"` when pretty-printing (`indent=2`),
`", "` in compact mode (Python's default separators). -/
def itemSep (pretty : Bool) : List Char :=
  if pretty then [',', '\n'] else [',', ' ']

/-- Whitespace after the opening bracket of a non-empty container: a
newline when pretty-printing, nothing in compact mode. -/
def openWs (pretty : Bool) : List Char :=
  if pretty then ['\n'] else []

/-- Whitespace before the closing bracket of a non-empty container:
newline plus closing indentation when pretty-printing. -/
def closeWs (pretty : Bool) (lvl : Nat) : List Char :=
  if pretty then '\n' :: indentChars lvl else []

mutual

/-- Characters of `json.dumps(v)` (compact, `pretty = false`) or
`json.dumps(v, indent=2)` (`pretty = true`), printed at indent level `lvl`. -/
def ppVal (pretty : Bool) (lvl : Nat) : Json → List Char
  | .null => "null".data
  | .bool true => "true".data
  | .bool false => "false".data
  | .num n => intChars n
  | .str s => strChars s
  | .arr [] => ['[', ']']
  | .arr (x :: xs) =>
    '[' :: (openWs pretty ++ (ppItems pretty (lvl + 1) (x :: xs) ++
      (closeWs pretty lvl ++ [']'])))
  | .obj [] => [Char.ofNat 123, Char.ofNat 125]
  | .obj (kv :: kvs) =>
    Char.ofNat 123 :: (openWs pretty ++ (ppFields pretty (lvl + 1) (kv :: kvs) ++
      (closeWs pretty lvl ++ [Char.ofNat 125])))

def ppItems (pretty : Bool) (lvl : Nat) : List Json → List Char
  | [] => []
  | [x] => itemLead pretty lvl ++ ppVal pretty lvl x
  | x :: y :: xs =>
    itemLead pretty lvl ++ (ppVal pretty lvl x ++
      (itemSep pretty ++ ppItems pretty lvl (y :: xs)))

def ppFields (pretty : Bool) (lvl : Nat) : List (String × Json) → List Char
  | [] => []
  | [(k, v)] =>
    itemLead pretty lvl ++ (strChars k ++ (':' :: ' ' :: ppVal pretty lvl v))
  | (k, v) :: kv :: kvs =>
    itemLead pretty lvl ++ (strChars k ++ (':' :: ' ' :: (ppVal pretty lvl v ++
      (itemSep pretty ++ ppFields pretty lvl (kv :: kvs)))))

end


/-- `json.dumps(v)` with default separators. -/
def dumps (v : Json) : String := String.mk (ppVal false 0 v)

/-- `json.dumps(v, indent=2)`. -/
def dumpsIndent2 (v : Json) : String := String.mk (ppVal true 0 v)

/-! ## Python `str()` of a value (used by f-string interpolation) -/

mutual

/-- Python `repr` of a JSON value, used for elements of lists/dicts inside
`str()`.  Strings are single-quoted (the quote-selection subtleties of
Python's `repr` are simplified away; no claim depends on them). -/
def reprPy : Json → String
  | .null => "None"
  | .bool true => "True"
  | .bool false => "False"
  | .num n => String.mk (intChars n)
  | .str s => "'" ++ s ++ "'"
  | .arr l => "[" ++ reprPyItems l ++ "]"
  | .obj l => "\x7b" ++ reprPyFields l ++ "\x7d"

def reprPyItems : List Json → String
  | [] => ""
  | [x] => reprPy x
  | x :: y :: xs => reprPy x ++ ", " ++ reprPyItems (y :: xs)

def reprPyFields : List (String × Json) → String
  | [] => ""
  | [(k, v)] => "'" ++ k ++ "': " ++ reprPy v
  | (k, v) :: kv :: kvs =>
    "'" ++ k ++ "': " ++ reprPy v ++ ", " ++ reprPyFields (kv :: kvs)

end


/-- Python `str(v)` of a value: identity on strings, `None`/`True`/`False`
for the singletons, decimal for numbers, `repr` for containers. -/
def strPy : Json → String
  | .str s => s
  | v => reprPy v

/-! ## `json.loads`: parsing -/

/-- JSON whitespace characters. -/
def isWsChar (c : Char) : Bool :=
  c = ' ' || c = '\n' || c = '\t' || c = '\r'

/-- JSON whitespace skipping. -/
def skipWs : List Char → List Char
  | [] => []
  | c :: cs => if isWsChar c then skipWs cs else c :: cs

/-- Value of one hex digit. -/
def hexVal (c : Char) : Option Nat :=
  if '0' ≤ c ∧ c ≤ '9' then some (c.toNat - 48)
  else if 'a' ≤ c ∧ c ≤ 'f' then some (c.toNat - 87)
  else if 'A' ≤ c ∧ c ≤ 'F' then some (c.toNat - 55)
  else none

/-- Decoding of a one-character escape sequence. -/
def decodeEsc (e : Char) : Option Char :=
  if e = '"' then some '"'
  else if e = '\\' then some '\\'
  else if e = '/' then some '/'
  else if e = 'n' then some '\n'
  else if e = 't' then some '\t'
  else if e = 'r' then some '\r'
  else if e = 'b' then some (Char.ofNat 8)
  else if e = 'f' then some (Char.ofNat 12)
  else none

/-- Body of a JSON string literal (after the opening quote): returns the
decoded characters and the input after the closing quote. -/
def parseStrBody : List Char → Option (List Char × List Char)
  | [] => none
  | c :: cs =>
    if c = '"' then some ([], cs)
    else if c = '\\' then
      match cs with
      | [] => none
      | e :: cs2 =>
        if e = 'u' then
          match cs2 with
          | a :: b :: c2 :: d :: cs3 =>
            match hexVal a, hexVal b, hexVal c2, hexVal d with
            | some x, some y, some z, some w =>
              match parseStrBody cs3 with
              | some (s, r) =>
                some (Char.ofNat (((x * 16 + y) * 16 + z) * 16 + w) :: s, r)
              | none => none
            | _, _, _, _ => none
          | _ => none
        else
          match decodeEsc e with
          | some c2 =>
            match parseStrBody cs2 with
            | some (s, r) => some (c2 :: s, r)
            | none => none
          | none => none
    else if c.toNat < 32 then none
    else
      match parseStrBody cs with
      | some (s, r) => some (c :: s, r)
      | none => none

/-- Digit run accumulation: consumes leading decimal digits. -/
def parseDigits : Nat → List Char → Nat × List Char
  | acc, [] => (acc, [])
  | acc, c :: cs =>
    if c.isDigit then parseDigits (acc * 10 + (c.toNat - 48)) cs
    else (acc, c :: cs)

/-- A JSON integer literal at the head of the input (no leading sign). -/
def parseNatNum : List Char → Option (Nat × List Char)
  | [] => none
  | c :: cs =>
    if c.isDigit then some (parseDigits (c.toNat - 48) cs)
    else none

mutual

/-- Recursive-descent JSON value at the head of the input (fuel-indexed);
leading whitespace is skipped.  Floats are not modelled: a fractional part
or exponent makes the overall parse fail. -/
def parseVal (fuel : Nat) (input : List Char) : Option (Json × List Char) :=
  match fuel with
  | 0 => none
  | fuel + 1 =>
    match skipWs input with
    | [] => none
    | c :: cs =>
      if c = 'n' then
        match cs with
        | 'u' :: 'l' :: 'l' :: rest => some (.null, rest)
        | _ => none
      else if c = 't' then
        match cs with
        | 'r' :: 'u' :: 'e' :: rest => some (.bool true, rest)
        | _ => none
      else if c = 'f' then
        match cs with
        | 'a' :: 'l' :: 's' :: 'e' :: rest => some (.bool false, rest)
        | _ => none
      else if c = '"' then
        match parseStrBody cs with
        | some (s, rest) => some (.str (String.mk s), rest)
        | none => none
      else if c = '-' then
        match parseNatNum cs with
        | some (n, rest) => some (.num (-(n : Int)), rest)
        | none => none
      else if c.isDigit then
        match parseNatNum (c :: cs) with
        | some (n, rest) => some (.num (n : Int), rest)
        | none => none
      else if c = '[' then
        match skipWs cs with
        | ']' :: rest => some (.arr [], rest)
        | rest => 
          match parseArrItems fuel rest with
          | some (items, rest2) => some (.arr items, rest2)
          | none => none
      else if c = Char.ofNat 123 then
        match skipWs cs with
        | d :: rest =>
          if d = Char.ofNat 125 then some (.obj [], rest)
          else
            match parseObjFields fuel (d :: rest) with
            | some (fields, rest2) => some (.obj fields, rest2)
            | none => none
        | [] => none
      else none

/-- Comma-separated array items followed by `]`. -/
def parseArrItems (fuel : Nat) (input : List Char) :
    Option (List Json × List Char) :=
  match fuel with
  | 0 => none
  | fuel + 1 =>
    match parseVal fuel input with
    | some (v, rest) =>
      match skipWs rest with
      | ',' :: rest2 =>
        match parseArrItems fuel rest2 with
        | some (vs, rest3) => some (v :: vs, rest3)
        | none => none
      | ']' :: rest2 => some ([v], rest2)
      | _ => none
    | none => none

/-- Comma-separated `"key": value` fields followed by the closing brace. -/
def parseObjFields (fuel : Nat) (input : List Char) :
    Option (List (String × Json) × List Char) :=
  match fuel with
  | 0 => none
  | fuel + 1 =>
    match skipWs input with
    | '"' :: cs =>
      match parseStrBody cs with
      | some (k, rest) =>
        match skipWs rest with
        | ':' :: rest2 =>
          match parseVal fuel rest2 with
          | some (v, rest3) =>
            match skipWs rest3 with
            | ',' :: rest4 =>
              match parseObjFields fuel rest4 with
              | some (fields, rest5) => some ((String.mk k, v) :: fields, rest5)
              | none => none
            | d :: rest4 =>
              if d = Char.ofNat 125 then some ([(String.mk k, v)], rest4)
              else none
            | [] => none
          | none => none
        | _ => none
      | none => none
    | _ => none

end


/-- `json.loads(s)`: parse one JSON value; trailing non-whitespace input is
an error, as in Python. -/
def loads (s : String) : Option Json :=
  match parseVal (s.data.length + 1) s.data with
  | some (v, rest) => if skipWs rest = [] then some v else none
  | none => none

/-- `true` when the input does not start with a decimal digit, so a digit
run ends exactly there. -/
def noDigitHead : List Char → Bool
  | [] => true
  | c :: _ => !c.isDigit

mutual

/-- Fuel sufficient for `parseVal` to parse back a printed value. -/
def jfuel : Json → Nat
  | .null => 1
  | .bool _ => 1
  | .num _ => 1
  | .str _ => 1
  | .arr l => 1 + jfuelItems l
  | .obj l => 1 + jfuelFields l

def jfuelItems : List Json → Nat
  | [] => 0
  | x :: xs => 1 + jfuel x + jfuelItems xs

def jfuelFields : List (String × Json) → Nat
  | [] => 0
  | (_, v) :: kvs => 1 + jfuel v + jfuelFields kvs

end

/-- Tail of the item separator after the comma. -/
def itemSepTail (pretty : Bool) : List Char :=
  if pretty then ['\n'] else [' ']

/-! ## The client: `MCPClient.process_query` (client.py)

The collaborators (remote tool process, HTTP completion endpoint) are
modelled as oracles in an `Env`; stateful collaborators are covered by
indexing each oracle with the number of calls made to it so far. -/

/-- The `content` attribute of a `call_tool` reply: either a wrapper
exposing a `.text` field, or a plain value (`None` is `plain .null`). -/
inductive RContent where
  | textWrap (text : Json)
  | plain (v : Json)

/-- A reply from `session.call_tool`: its `content` attribute and its
`error` attribute (`getattr(result, 'error', False)`; a missing attribute
is `plain`/`.bool false`). -/
structure CallToolResult where
  content : RContent
  error : Json

/-- Outcome of one `session.call_tool` invocation: an exception or a reply. -/
inductive InvokeResult where
  | raises (e : PyExn)
  | returns (result : CallToolResult)

/-- Outcome of one HTTP POST to the completion endpoint: a transport-level
exception (including a body that fails to parse as JSON), or a response
with a status code and parsed JSON body. -/
inductive HttpResult where
  | raises (e : PyExn)
  | responds (status : Nat) (body : Json)

/-- The argument value dispatched to `call_tool`: the parsed JSON when
`json.loads(args_raw)` succeeds, the raw unparsed string when it fails,
or the non-string value itself when `args_raw` is not a string
(`json.loads` then raises `TypeError`, caught by the same fallback). -/
inductive ArgVal where
  | parsed (j : Json)
  | rawStr (s : String)
  | other (v : Json)

/-- Observable effects of `process_query` on its collaborators. -/
inductive Event where
  | completionRequest (messages : List Json) (withTools : Bool)
  | toolInvocation (name : Json) (args : ArgVal)
  | turnAppend (turn : Json)

/-- Behaviour of the collaborators: the tool listing, the initial
completion response, and the reply to the `i`-th tool invocation /
follow-up completion request. -/
structure Env where
  listTools : Except PyExn (List (Json × Json × Json))
  initialCompletion : HttpResult
  invoke : Nat → InvokeResult
  followup : Nat → HttpResult

/-- The mutable state of one `process_query` run: `final_text`,
`messages`, plus the event trace and per-oracle call counters. -/
structure PState where
  finalText : List Json
  messages : List Json
  events : List Event
  invCount : Nat
  fuCount : Nat

def PState.pushText (st : PState) (e : Json) : PState :=
  { st with finalText := st.finalText ++ [e] }

def PState.pushEvent (st : PState) (ev : Event) : PState :=
  { st with events := st.events ++ [ev] }

/-- `x.get(key)` on a value known to be a dict (`None` when absent). -/
def pyGetD (j : Json) (key : String) : Json :=
  match j with
  | .obj l => (alookup l key).getD .null
  | _ => .null

/-- `response_data["choices"][0]["message"]`. -/
def extractMsg (body : Json) : Except PyExn Json := do
  let choices ← pyGetItemS body "choices"
  let c0 ← pyGetItemIdx choices 0
  pyGetItemS c0 "message"

/-- The exception message raised for a non-200 completion response:
`Exception(f"Groq API error: {error.get('error', 'Unknown error')}")`.
When the body is not a dict, `.get` itself raises and that exception
propagates instead. -/
def groqErrMsg (body : Json) : PyExn :=
  match pyGet body "error" (.str "Unknown error") with
  | .ok ev => "Groq API error: " ++ strPy ev
  | .error e => e

/-- `formatted`: `json.dumps(json.loads(raw), indent=2)` when `raw` is a
string parsing as JSON, otherwise `str(raw)` (the `except` fallback,
also taken when `json.loads` raises `TypeError` on a non-string). -/
def formatContent (raw : Json) : String :=
  match raw with
  | .str s =>
    match loads s with
    | some p => dumpsIndent2 p
    | none => s
  | v => strPy v

/-- The `tool` turn appended to `messages` after a successful tool call. -/
def mkToolTurn (callId toolName : Json) (formatted : String) : Json :=
  .obj [("role", .str "tool"), ("tool_call_id", callId),
    ("name", toolName), ("content", .str formatted)]

/-- The initial `user` turn. -/
def userTurn (query : String) : Json :=
  .obj [("role", .str "user"), ("content", .str query)]

/-- `msg.get("content")`. -/
def contentOf (msg : Json) : Except PyExn Json := pyGet msg "content" .null

/-- `msg.get("tool_calls", [])`. -/
def toolCallsOf (msg : Json) : Except PyExn Json := pyGet msg "tool_calls" (.arr [])

/-- `fu_data["choices"][0]["message"].get("content")`. -/
def followupContent (body : Json) : Except PyExn Json := do
  let cs ← pyGetItemS body "choices"
  let c0 ← pyGetItemIdx cs 0
  let m ← pyGetItemS c0 "message"
  pyGet m "content" .null

/-- The inner `try` block of the per-tool-call loop: invoke the tool,
normalize the reply, emit transcript lines, append the `tool` turn and
issue the follow-up completion.  Every exception inside is caught and
rendered as a `❌ Tool execution failed:` line, so the result is a plain
state. -/
def toolTry (env : Env) (st0 : PState) (toolName : Json) (toolArgs : ArgVal)
    (callId : Json) : PState :=
  let st1 := st0.pushEvent (.toolInvocation toolName toolArgs)
  let res := env.invoke st1.invCount
  let st := { st1 with invCount := st1.invCount + 1 }
  match res with
  | .raises e => st.pushText (.str ("❌ Tool execution failed: " ++ e))
  | .returns r =>
    let rawContent := match r.content with | .textWrap t => t | .plain v => v
    if truthy r.error then
      st.pushText (.str ("⚠️ Tool error: " ++ strPy rawContent))
    else
      let formatted := formatContent rawContent
      let st := st.pushText
        (.str ("🔧 Tool " ++ strPy toolName ++ " result:\n" ++ formatted))
      let turn := mkToolTurn callId toolName formatted
      let st := { st with
        messages := st.messages ++ [turn]
        events := st.events ++ [Event.turnAppend turn] }
      let st := st.pushEvent (.completionRequest st.messages false)
      let fu := env.followup st.fuCount
      let st := { st with fuCount := st.fuCount + 1 }
      match fu with
      | .raises e => st.pushText (.str ("❌ Tool execution failed: " ++ e))
      | .responds status body =>
        if status ≠ 200 then
          st.pushText (.str ("❌ Tool execution failed: " ++ groqErrMsg body))
        else
          match pyGet body "choices" .null with
          | .error e => st.pushText (.str ("❌ Tool execution failed: " ++ e))
          | .ok choicesV =>
            if truthy choicesV then
              match followupContent body with
              | .error e => st.pushText (.str ("❌ Tool execution failed: " ++ e))
              | .ok fa =>
                if truthy fa then
                  st.pushText (.str ("📝 Final analysis:\n" ++ strPy fa))
                else st
            else st

/-- One iteration of `for call in tool_calls`: the extraction of
`call["function"]["name"]` and `call["function"].get("arguments")` sits
outside the inner `try`, so its exceptions escape to the outer handler
(carried in the `.error` case together with the state at the raise). -/
def process_call (env : Env) (st : PState) (call : Json) :
    Except (PyExn × PState) PState :=
  match pyGetItemS call "function" with
  | .error e => .error (e, st)
  | .ok fn =>
    match pyGetItemS fn "name" with
    | .error e => .error (e, st)
    | .ok toolName =>
      match pyGet fn "arguments" .null with
      | .error e => .error (e, st)
      | .ok argsRaw =>
        let toolArgs : ArgVal :=
          match argsRaw with
          | .str s =>
            match loads s with
            | some j => .parsed j
            | none => .rawStr s
          | v => .other v
        .ok (toolTry env st toolName toolArgs (pyGetD call "id"))

/-- The whole tool-call loop; an escaping exception carries the state at
the raise point (Python's `except` still sees the accumulated lists). -/
def process_calls (env : Env) (st : PState) : List Json → PState × Option PyExn
  | [] => (st, none)
  | c :: cs =>
    match process_call env st c with
    | .error (e, st2) => (st2, some e)
    | .ok st2 => process_calls env st2 cs

/-- Result of one `process_query` call: the returned string (or the
exception it raises), plus the observable state. -/
structure QueryRun where
  output : Except PyExn String
  entries : List Json
  events : List Event
  messages : List Json

def pyJoinStrs : List Json → Option (List String)
  | [] => some []
  | .str s :: rest => (pyJoinStrs rest).map (fun l => s :: l)
  | _ => none

/-- `"\n".join(final_text)`: raises `TypeError` when an element is not a
string.  This runs outside the `try`/`except`. -/
def pyJoin (l : List Json) : Except PyExn String :=
  match pyJoinStrs l with
  | some strs => .ok (String.intercalate "\n" strs)
  | none => .error "TypeError: sequence item: expected str instance"

/-- The epilogue of `process_query`: the outer `except` appends the
critical line when an exception escaped the `try`, then the transcript is
joined. -/
def finishRun (st : PState) (exn : Option PyExn) : QueryRun :=
  let stF := match exn with
    | some e => st.pushText (.str ("🚨 Critical error processing query: " ++ e))
    | none => st
  { output := pyJoin stF.finalText, entries := stF.finalText,
    events := stF.events, messages := stF.messages }

/-- `MCPClient.process_query`, translated from client.py: list tools,
issue the initial completion, append the assistant content when truthy,
run the tool-call loop, catch any escaping exception into a single
critical line, and join the transcript. -/
def process_query (env : Env) (query : String) : QueryRun :=
  let st0 : PState := {
    finalText := []
    messages := [userTurn query]
    events := []
    invCount := 0
    fuCount := 0 }
  match env.listTools with
  | .error e => finishRun st0 (some e)
  | .ok _tools =>
    let st1 := st0.pushEvent (.completionRequest st0.messages true)
    match env.initialCompletion with
    | .raises e => finishRun st1 (some e)
    | .responds status body =>
      if status ≠ 200 then finishRun st1 (some (groqErrMsg body))
      else
        match extractMsg body with
        | .error e => finishRun st1 (some e)
        | .ok msg =>
          match contentOf msg with
          | .error e => finishRun st1 (some e)
          | .ok contentV =>
            let st2 := if truthy contentV then st1.pushText contentV else st1
            match toolCallsOf msg with
            | .error e => finishRun st2 (some e)
            | .ok tcV =>
              match pyIter tcV with
              | .error e => finishRun st2 (some e)
              | .ok calls =>
                let p := process_calls env st2 calls
                finishRun p.1 p.2

/-! ## The server: the four tool handlers (server.py)

The module-level datasets (`PATIENTS`, `MEDICATIONS`, `GUIDELINES`) are
values loaded by `json.load`, passed here as explicit `Json` parameters. -/

/-- The pydantic response model of server.py. -/
structure ToolResponse where
  content : String
  error : Bool

/-- Does `hay` start with `needle`? -/
def startsWithChars : List Char → List Char → Bool
  | [], _ => true
  | _ :: _, [] => false
  | a :: as, b :: bs => a == b && startsWithChars as bs

/-- Does `hay` contain `needle` as a contiguous run (Python `in` on str)? -/
def containsChars (needle : List Char) : List Char → Bool
  | [] => needle.isEmpty
  | c :: cs => startsWithChars needle (c :: cs) || containsChars needle cs

/-- Python `needle in container` for a string needle: dict keys, list
membership, substring; `TypeError` otherwise. -/
def pyIn (needle : String) (container : Json) : Except PyExn Bool :=
  match container with
  | .obj l => .ok (l.any (fun kv => kv.1 == needle))
  | .arr l => .ok (l.any (strEqJson needle))
  | .str s => .ok (containsChars needle.data s.data)
  | _ => .error "TypeError: argument is not iterable"

/-- `[{"id": p["id"], "name": p["name"]} for p in PATIENTS]` plus the
final `json.dumps`; any exception is caught into an error response. -/
def list_patients_tool (PATIENTS : Json) : ToolResponse :=
  let body : Except PyExn String := do
    let pts ← pyIter PATIENTS
    let entries ← pts.mapM (fun p => do
      let idv ← pyGetItemS p "id"
      let nmv ← pyGetItemS p "name"
      pure (Json.obj [("id", idv), ("name", nmv)]))
    pure (dumps (.obj [("patients", .arr entries)]))
  match body with
  | .ok s => ⟨s, false⟩
  | .error e => ⟨"Error listing patients: " ++ e, true⟩

/-- `next((p for p in PATIENTS if p["id"] == patient_id), None)`: the
generator is evaluated lazily and left to right, so an exception inside
stops the search there. -/
def findPatient : List Json → String → Except PyExn (Option Json)
  | [], _ => .ok none
  | p :: ps, pid => do
    let idv ← pyGetItemS p "id"
    if strEqJson pid idv then pure (some p) else findPatient ps pid

def fetch_patient_data_tool (PATIENTS : Json) (patient_id : String) :
    ToolResponse :=
  if patient_id = "" then ⟨"Missing required patient_id", true⟩
  else
    let body : Except PyExn ToolResponse := do
      let pts ← pyIter PATIENTS
      let p? ← findPatient pts patient_id
      match p? with
      | some p =>
        if truthy p then pure ⟨dumps p, false⟩
        else pure ⟨"Patient " ++ patient_id ++ " not found", true⟩
      | none => pure ⟨"Patient " ++ patient_id ++ " not found", true⟩
    match body with
    | .ok r => r
    | .error e => ⟨"Error fetching patient data: " ++ e, true⟩

/-- The body of the `for med in medications` loop: the interaction line
contributed by one medication, if any. -/
def interactionsFor (MEDICATIONS : Json) (medications : List String)
    (med : String) : Except PyExn (Option String) := do
  let b ← pyIn med MEDICATIONS
  if b then
    let mv ← pyGetItemS MEDICATIONS med
    let iv ← pyGet mv "interactions" (.arr [])
    let interacting ← medications.filterM (fun m => pyIn m iv)
    if interacting.isEmpty then pure none
    else pure (some (med ++ " interacts with: " ++ String.intercalate ", " interacting))
  else pure none

def buildInteractions (MEDICATIONS : Json) (medications : List String) :
    Except PyExn (List String) :=
  medications.foldlM (fun acc med => do
    match ← interactionsFor MEDICATIONS medications med with
    | some line => pure (acc ++ [line])
    | none => pure acc) []

def check_medication_interactions_tool (MEDICATIONS : Json)
    (medications : List String) : ToolResponse :=
  if medications.isEmpty then ⟨"Invalid medications list format", true⟩
  else
    let body : Except PyExn String := do
      let interactions ← buildInteractions MEDICATIONS medications
      let result :=
        if interactions.isEmpty then ["No dangerous interactions found"]
        else interactions
      pure (dumps (.obj [("interactions", .arr (result.map Json.str))]))
    match body with
    | .ok s => ⟨s, false⟩
    | .error e => ⟨"Error checking interactions: " ++ e, true⟩

/-- `next((g for g in GUIDELINES if g["condition"].lower() ==
condition.lower()), None)`; `.lower()` on a non-string raises. -/
def findGuideline : List Json → String → Except PyExn (Option Json)
  | [], _ => .ok none
  | g :: gs, cond => do
    let cv ← pyGetItemS g "condition"
    match cv with
    | .str s =>
      if s.toLower == cond.toLower then pure (some g) else findGuideline gs cond
    | _ => .error "AttributeError: 'object' has no attribute 'lower'"

def get_clinical_guidelines_tool (GUIDELINES : Json) (condition : String) :
    ToolResponse :=
  if condition = "" then ⟨"Missing required condition", true⟩
  else
    let body : Except PyExn ToolResponse := do
      let gs ← pyIter GUIDELINES
      let g? ← findGuideline gs condition
      match g? with
      | some g =>
        if truthy g then pure ⟨dumps g, false⟩
        else pure ⟨"No guidelines found for " ++ condition, true⟩
      | none => pure ⟨"No guidelines found for " ++ condition, true⟩
    match body with
    | .ok r => r
    | .error e => ⟨"Error fetching guidelines: " ++ e, true⟩

/-! ## Structural lemmas about the per-call processing -/

/-- Is every transcript entry a Python `str`? -/
def allStrB (l : List Json) : Bool :=
  l.all (fun e => match e with | .str _ => true | _ => false)

/-- `raw_content`: the `.text` field when the reply content exposes one,
the plain value otherwise. -/
def rawContentOf (r : CallToolResult) : Json :=
  match r.content with
  | .textWrap t => t
  | .plain v => v

/-- A completion HTTP outcome the code treats as a failure: a transport
exception or a non-200 status. -/
def isFailHttp : HttpResult → Prop
  | .raises _ => True
  | .responds status _ => status ≠ 200

/-- Did the `k`-th tool invocation lead to a follow-up completion request
(i.e. return without raising and without the error flag)? -/
def attempted (env : Env) (k : Nat) : Bool :=
  match env.invoke k with
  | .returns r => !truthy r.error
  | .raises _ => false

/-- Number of follow-up completion requests issued by the calls at
positions `start, start+1, …, start+n-1`. -/
def countAttempted (env : Env) (start : Nat) : Nat → Nat
  | 0 => 0
  | n + 1 => (if attempted env start then 1 else 0) + countAttempted env (start + 1) n

/-- The argument value computed from `call["function"]` (a dict). -/
def argValOf (fn : Json) : ArgVal :=
  match pyGetD fn "arguments" with
  | .str s =>
    match loads s with
    | some j => .parsed j
    | none => .rawStr s
  | v => .other v

/-- A well-formed tool-call request: `call["function"]["name"]` exists, so
the pre-`try` extraction raises nothing. -/
def WfCall (c : Json) : Prop :=
  ∃ fn nm, pyGetItemS c "function" = .ok fn ∧ pyGetItemS fn "name" = .ok nm

/-- A body shaped `{"choices": [{"message": {"content": c,
"tool_calls": [...]}}]}`. -/
def choicesBody (content : Json) (tcs : List Json) : Json :=
  .obj [("choices", .arr [.obj [("message",
    .obj [("content", content), ("tool_calls", .arr tcs)])]])]

/-- A well-formed tool-call request object. -/
def wfCallJson (id name args : Json) : Json :=
  .obj [("id", id), ("function", .obj [("name", name), ("arguments", args)])]

/-- The textual content of an assistant message: the string itself, and
the empty string when the content is absent (`None`). -/
def contentText : Json → String
  | .str s => s
  | _ => ""

def c3wEnv : Env := {
  listTools := .ok []
  initialCompletion := .responds 500 (.obj [("error", .str "Internal Server Error")])
  invoke := fun _ => .raises "unused"
  followup := fun _ => .raises "unused" }

def c4wEnv : Env := {
  listTools := .ok []
  initialCompletion := .responds 200 (choicesBody (.str "Here are the patients.") [])
  invoke := fun _ => .raises "unused"
  followup := fun _ => .raises "unused" }

def c5wEnv : Env := {
  listTools := .ok []
  initialCompletion := .responds 200 (choicesBody .null
    [wfCallJson (.str "id1") (.str "fetch_patient_data_tool") (.str "\x7b\x7d")])
  invoke := fun _ =>
    .returns ⟨.textWrap (.str "Patient PT-9999 not found"), .bool true⟩
  followup := fun _ => .raises "unused" }

def c5wState : PState := {
  finalText := []
  messages := [userTurn "q"]
  events := [.completionRequest [userTurn "q"] true]
  invCount := 0
  fuCount := 0 }

def c1cexEnv : Env := {
  listTools := .ok []
  initialCompletion := .responds 200 (choicesBody .null
    [wfCallJson (.str "id3") (.str "toolC") (.str "\x7binvalid json")])
  invoke := fun _ => .returns ⟨.plain (.str "\"ok\""), .bool false⟩
  followup := fun _ => .responds 200 (.obj [("choices", .arr [])]) }

def c1wCalls : List Json :=
  [wfCallJson (.str "a") (.str "t1") (.str "\x7b\x7d"),
   wfCallJson (.str "b") (.str "t2") (.str "\x7b\x7d")]

def c1wEnv : Env := {
  listTools := .ok []
  initialCompletion := .responds 200 (choicesBody .null c1wCalls)
  invoke := fun i =>
    if i = 0 then .raises "boom0"
    else .returns ⟨.plain (.str "\"fine\""), .bool false⟩
  followup := fun _ => .responds 500 (.obj [("error", .str "fu500")]) }

def c2cexEnv : Env := {
  listTools := .ok []
  initialCompletion := .responds 200 (choicesBody .null
    [wfCallJson (.str "id1") (.str "toolA") (.str "\x7b\"a\": 1\x7d"),
     wfCallJson (.str "id2") (.str "toolB") (.str "\x7b\"b\": 2\x7d")])
  invoke := fun _ => .returns ⟨.textWrap (.str "\"okres\""), .bool false⟩
  followup := fun i =>
    if i = 0 then .responds 500 (.obj [("error", .str "fuboom")])
    else .responds 200 (choicesBody (.str "analysis2") []) }

def c2wEnv : Env := {
  listTools := .ok []
  initialCompletion := .responds 502 (.obj [("error", .str "bad gateway")])
  invoke := fun _ => .returns ⟨.plain (.str "\"x\""), .bool false⟩
  followup := fun _ => .responds 503 (.obj [("error", .str "down")]) }

def c2wST : PState := {
  finalText := []
  messages := [userTurn "q"]
  events := []
  invCount := 0
  fuCount := 0 }

def c6cexEnv : Env := {
  listTools := .ok []
  initialCompletion := .responds 200 (choicesBody .null
    [wfCallJson (.str "idz") (.str "toolZ") (.str "\x7b\x7d")])
  invoke := fun _ => .returns ⟨.plain (.str "bad thing"), .bool true⟩
  followup := fun _ => .raises "unused" }

def c6wEnv : Env := {
  listTools := .ok []
  initialCompletion := .responds 200 (choicesBody .null
    [wfCallJson (.str "idy") (.str "toolY") (.str "\x7b\x7d")])
  invoke := fun _ => .returns ⟨.plain (.str "\"ok\""), .bool false⟩
  followup := fun _ => .responds 200 (.obj [("choices", .arr [])]) }

def c6wST : PState := {
  finalText := []
  messages := [userTurn "q"]
  events := []
  invCount := 0
  fuCount := 0 }

def c7wCall : Json :=
  wfCallJson (.str "idc") (.str "toolC") (.str "\x7binvalid json")

def c7wEnv : Env := {
  listTools := .ok []
  initialCompletion := .responds 200 (choicesBody .null [c7wCall])
  invoke := fun _ => .returns ⟨.plain (.str "\"ok\""), .bool false⟩
  followup := fun _ => .responds 200 (.obj [("choices", .arr [])]) }

def c7wST : PState := {
  finalText := []
  messages := [userTurn "q"]
  events := []
  invCount := 0
  fuCount := 0 }

def c9cexEnv : Env := {
  listTools := .ok []
  initialCompletion := .responds 200 (choicesBody (.num 1) [])
  invoke := fun _ => .raises "unused"
  followup := fun _ => .raises "unused" }

def c9wEnv : Env := {
  listTools := .ok []
  initialCompletion := .responds 200 (choicesBody (.str "fine")
    [wfCallJson (.str "w") (.str "toolW") .null])
  invoke := fun _ => .raises "tool exploded"
  followup := fun _ => .raises "unused" }

def c10pats : Json :=
  .arr [.obj [("id", .str "PT-1001"), ("name", .str "Jane Doe")]]

/-! ## Round-trip: `loads (dumps v) = some v` -/

theorem skipWs_cons_ws {c : Char} (h : isWsChar c = true) (cs : List Char) :
    skipWs (c :: cs) = skipWs cs := by simp [skipWs, h]

theorem skipWs_cons_not_ws {c : Char} (h : isWsChar c = false) (cs : List Char) :
    skipWs (c :: cs) = c :: cs := by simp [skipWs, h]

theorem skipWs_append_ws {w : List Char} (h : ∀ c ∈ w, isWsChar c = true)
    (cs : List Char) : skipWs (w ++ cs) = skipWs cs := by
  induction w with
  | nil => rfl
  | cons c w ih =>
    have hc : isWsChar c = true := h c (by simp)
    simp only [List.cons_append, skipWs_cons_ws hc]
    exact ih (fun d hd => h d (by simp [hd]))

theorem skipWs_idem (cs : List Char) : skipWs (skipWs cs) = skipWs cs := by
  induction cs with
  | nil => rfl
  | cons c cs ih =>
    by_cases hc : isWsChar c = true
    · simp [skipWs_cons_ws hc, ih]
    · simp only [Bool.not_eq_true] at hc
      simp [skipWs_cons_not_ws hc]

theorem indentChars_ws (lvl : Nat) : ∀ c ∈ indentChars lvl, isWsChar c = true := by
  intro c hc
  simp only [indentChars, List.mem_replicate] at hc
  simp [hc.2, isWsChar]

theorem skipWs_indent (lvl : Nat) (cs : List Char) :
    skipWs (indentChars lvl ++ cs) = skipWs cs :=
  skipWs_append_ws (indentChars_ws lvl) cs

theorem skipWs_itemLead (pretty : Bool) (lvl : Nat) (cs : List Char) :
    skipWs (itemLead pretty lvl ++ cs) = skipWs cs := by
  cases pretty <;> simp [itemLead, skipWs_indent]

theorem skipWs_openWs (pretty : Bool) (cs : List Char) :
    skipWs (openWs pretty ++ cs) = skipWs cs := by
  cases pretty <;> simp [openWs, skipWs_cons_ws, isWsChar, skipWs]

theorem skipWs_closeWs (pretty : Bool) (lvl : Nat) (cs : List Char) :
    skipWs (closeWs pretty lvl ++ cs) = skipWs cs := by
  cases pretty
  · simp [closeWs]
  · show skipWs ('\n' :: (indentChars lvl ++ cs)) = skipWs cs
    rw [skipWs_cons_ws (by decide), skipWs_indent]

theorem parseVal_skipWs (fuel : Nat) (input : List Char) :
    parseVal fuel (skipWs input) = parseVal fuel input := by
  cases fuel with
  | zero => rfl
  | succ f => simp only [parseVal, skipWs_idem]

theorem parseArrItems_skipWs (fuel : Nat) (input : List Char) :
    parseArrItems fuel (skipWs input) = parseArrItems fuel input := by
  cases fuel with
  | zero => rfl
  | succ f => simp only [parseArrItems, parseVal_skipWs]

theorem parseObjFields_skipWs (fuel : Nat) (input : List Char) :
    parseObjFields fuel (skipWs input) = parseObjFields fuel input := by
  cases fuel with
  | zero => rfl
  | succ f => simp only [parseObjFields, skipWs_idem]

theorem parseVal_ws_absorb (fuel : Nat) {w : List Char}
    (h : ∀ c ∈ w, isWsChar c = true) (cs : List Char) :
    parseVal fuel (w ++ cs) = parseVal fuel cs := by
  rw [← parseVal_skipWs fuel (w ++ cs), skipWs_append_ws h, parseVal_skipWs]

theorem parseArrItems_ws_absorb (fuel : Nat) {w : List Char}
    (h : ∀ c ∈ w, isWsChar c = true) (cs : List Char) :
    parseArrItems fuel (w ++ cs) = parseArrItems fuel cs := by
  rw [← parseArrItems_skipWs fuel (w ++ cs), skipWs_append_ws h, parseArrItems_skipWs]

theorem parseObjFields_ws_absorb (fuel : Nat) {w : List Char}
    (h : ∀ c ∈ w, isWsChar c = true) (cs : List Char) :
    parseObjFields fuel (w ++ cs) = parseObjFields fuel cs := by
  rw [← parseObjFields_skipWs fuel (w ++ cs), skipWs_append_ws h, parseObjFields_skipWs]

theorem digitChar_isDigit {d : Nat} (h : d < 10) : (digitChar d).isDigit = true := by
  interval_cases d <;> decide

theorem digitChar_toNat {d : Nat} (h : d < 10) : (digitChar d).toNat - 48 = d := by
  interval_cases d <;> decide

theorem digitChar_not_ws {d : Nat} (h : d < 10) : isWsChar (digitChar d) = false := by
  interval_cases d <;> decide

theorem parseDigits_stop {acc : Nat} {rest : List Char}
    (h : noDigitHead rest = true) : parseDigits acc rest = (acc, rest) := by
  cases rest with
  | nil => rfl
  | cons c cs =>
    simp only [noDigitHead, Bool.not_eq_true'] at h
    simp [parseDigits, h]

theorem parseDigits_cons_digit {c : Char} (h : c.isDigit = true) (acc : Nat)
    (cs : List Char) :
    parseDigits acc (c :: cs) = parseDigits (acc * 10 + (c.toNat - 48)) cs := by
  simp [parseDigits, h]

theorem parseDigits_chain {fuel : Nat} : ∀ {n : Nat}, n < fuel →
    ∀ (acc : Nat) (rest : List Char),
    parseDigits acc (natCharsAux fuel n ++ rest) =
      parseDigits (acc * 10 ^ (natCharsAux fuel n).length + n) rest := by
  induction fuel with
  | zero => intro n h; omega
  | succ f ih =>
    intro n _ acc rest
    by_cases h10 : n < 10
    · simp only [natCharsAux, if_pos h10, List.singleton_append,
        List.length_singleton]
      rw [parseDigits_cons_digit (digitChar_isDigit h10), digitChar_toNat h10]
      norm_num
    · have hlt : n / 10 < f := by
        have h1 : n / 10 < n := Nat.div_lt_self (by omega) (by omega)
        omega
      have hd : n % 10 < 10 := by omega
      simp only [natCharsAux, if_neg h10, List.append_assoc, List.cons_append,
        List.nil_append, List.length_append, List.length_singleton]
      rw [ih hlt acc, parseDigits_cons_digit (digitChar_isDigit hd),
        digitChar_toNat hd]
      have : (acc * 10 ^ (natCharsAux f (n / 10)).length + n / 10) * 10 + n % 10 =
          acc * 10 ^ ((natCharsAux f (n / 10)).length + 1) + n := by
        rw [pow_succ]; ring_nf; omega
      rw [this]

theorem natCharsAux_head {fuel : Nat} : ∀ {n : Nat}, n < fuel →
    ∃ d ds, natCharsAux fuel n = digitChar d :: ds ∧ d < 10 := by
  induction fuel with
  | zero => intro n h; omega
  | succ f ih =>
    intro n _
    by_cases h10 : n < 10
    · exact ⟨n, [], by simp [natCharsAux, if_pos h10], h10⟩
    · obtain ⟨d, ds, hds, hd⟩ := ih (show n / 10 < f by omega)
      exact ⟨d, ds ++ [digitChar (n % 10)], by simp [natCharsAux, if_neg h10, hds], hd⟩

theorem parseNatNum_natChars (n : Nat) {rest : List Char}
    (hrest : noDigitHead rest = true) :
    parseNatNum (natChars n ++ rest) = some (n, rest) := by
  have hrun := parseDigits_chain (show n < n + 1 by omega) 0 rest
  rw [parseDigits_stop hrest] at hrun
  obtain ⟨d, ds, hds, hd⟩ := natCharsAux_head (show n < n + 1 by omega)
  simp only [natChars] at hrun ⊢
  rw [hds] at hrun ⊢
  rw [List.cons_append] at hrun ⊢
  rw [parseDigits_cons_digit (digitChar_isDigit hd), digitChar_toNat hd] at hrun
  simp only [parseNatNum, if_pos (digitChar_isDigit hd), digitChar_toNat hd]
  simp only [Nat.zero_mul, Nat.zero_add] at hrun
  rw [hrun]

theorem hexVal_hexDigitChar {d : Nat} (h : d < 16) :
    hexVal (hexDigitChar d) = some d := by
  interval_cases d <;> decide

theorem parseStrBody_quote (cs : List Char) :
    parseStrBody ('"' :: cs) = some ([], cs) := by
  rw [parseStrBody.eq_def]; simp

theorem parseStrBody_esc {e c2 : Char} (h : decodeEsc e = some c2)
    (he : ¬ e = 'u') {cs s r : List Char} (hp : parseStrBody cs = some (s, r)) :
    parseStrBody ('\\' :: e :: cs) = some (c2 :: s, r) := by
  conv_lhs => rw [parseStrBody.eq_def]
  simp [he, h, hp]

theorem parseStrBody_uEsc {a b c2 d : Char} {x y z w : Nat}
    (ha : hexVal a = some x) (hb : hexVal b = some y) (hc : hexVal c2 = some z)
    (hd : hexVal d = some w) {cs s r : List Char}
    (hp : parseStrBody cs = some (s, r)) :
    parseStrBody ('\\' :: 'u' :: a :: b :: c2 :: d :: cs) =
      some (Char.ofNat (((x * 16 + y) * 16 + z) * 16 + w) :: s, r) := by
  conv_lhs => rw [parseStrBody.eq_def]
  simp [ha, hb, hc, hd, hp]

theorem parseStrBody_plain {c : Char} (h1 : ¬ c = '"') (h2 : ¬ c = '\\')
    (h3 : ¬ c.toNat < 32) {cs s r : List Char}
    (hp : parseStrBody cs = some (s, r)) :
    parseStrBody (c :: cs) = some (c :: s, r) := by
  conv_lhs => rw [parseStrBody.eq_def]
  simp [h1, h2, h3, hp]

theorem parseStrBody_escStr : ∀ (cs rest : List Char),
    parseStrBody (escStr cs ++ ('"' :: rest)) = some (cs, rest) := by
  intro cs
  induction cs with
  | nil => intro rest; simp [escStr, parseStrBody_quote]
  | cons c cs ih =>
    intro rest
    simp only [escStr, List.append_assoc]
    by_cases h1 : c = '"'
    · subst h1
      simp only [escChar, if_pos rfl, List.cons_append, List.nil_append]
      exact parseStrBody_esc (by decide) (by decide) (ih rest)
    · by_cases h2 : c = '\\'
      · subst h2
        simp only [escChar, if_neg (by decide : ¬ ('\\' : Char) = '"'), if_pos rfl,
          List.cons_append, List.nil_append]
        exact parseStrBody_esc (by decide) (by decide) (ih rest)
      · by_cases h3 : c = '\n'
        · subst h3
          simp only [escChar, if_neg (by decide : ¬ ('\n' : Char) = '"'),
            if_neg (by decide : ¬ ('\n' : Char) = '\\'), if_pos rfl,
            List.cons_append, List.nil_append]
          exact parseStrBody_esc (by decide) (by decide) (ih rest)
        · by_cases h4 : c = '\t'
          · subst h4
            simp only [escChar, if_neg (by decide : ¬ ('\t' : Char) = '"'),
              if_neg (by decide : ¬ ('\t' : Char) = '\\'),
              if_neg (by decide : ¬ ('\t' : Char) = '\n'), if_pos rfl,
              List.cons_append, List.nil_append]
            exact parseStrBody_esc (by decide) (by decide) (ih rest)
          · by_cases h5 : c = '\r'
            · subst h5
              simp only [escChar, if_neg (by decide : ¬ ('\r' : Char) = '"'),
                if_neg (by decide : ¬ ('\r' : Char) = '\\'),
                if_neg (by decide : ¬ ('\r' : Char) = '\n'),
                if_neg (by decide : ¬ ('\r' : Char) = '\t'), if_pos rfl,
                List.cons_append, List.nil_append]
              exact parseStrBody_esc (by decide) (by decide) (ih rest)
            · by_cases h6 : c.toNat = 8
              · have hc : Char.ofNat 8 = c := by rw [← h6, Char.ofNat_toNat]
                simp only [escChar, if_neg h1, if_neg h2, if_neg h3, if_neg h4,
                  if_neg h5, if_pos h6, List.cons_append, List.nil_append]
                rw [parseStrBody_esc (show decodeEsc 'b' = some (Char.ofNat 8) by decide)
                  (by decide) (ih rest), hc]
              · by_cases h7 : c.toNat = 12
                · have hc : Char.ofNat 12 = c := by rw [← h7, Char.ofNat_toNat]
                  simp only [escChar, if_neg h1, if_neg h2, if_neg h3, if_neg h4,
                    if_neg h5, if_neg h6, if_pos h7, List.cons_append, List.nil_append]
                  rw [parseStrBody_esc (show decodeEsc 'f' = some (Char.ofNat 12) by decide)
                    (by decide) (ih rest), hc]
                · by_cases h8 : c.toNat < 32
                  · have hd1 : c.toNat / 16 < 16 := by omega
                    have hd2 : c.toNat % 16 < 16 := by omega
                    simp only [escChar, if_neg h1, if_neg h2, if_neg h3, if_neg h4,
                      if_neg h5, if_neg h6, if_neg h7, if_pos h8, List.cons_append,
                      List.nil_append]
                    rw [parseStrBody_uEsc (show hexVal '0' = some 0 by decide)
                      (show hexVal '0' = some 0 by decide)
                      (hexVal_hexDigitChar hd1) (hexVal_hexDigitChar hd2) (ih rest)]
                    have harith : ((0 * 16 + 0) * 16 + c.toNat / 16) * 16 +
                        c.toNat % 16 = c.toNat := by omega
                    rw [harith, Char.ofNat_toNat]
                  · simp only [escChar, if_neg h1, if_neg h2, if_neg h3, if_neg h4,
                      if_neg h5, if_neg h6, if_neg h7, if_neg h8, List.cons_append,
                      List.nil_append]
                    exact parseStrBody_plain h1 h2 h8 (ih rest)


theorem pv_null (f : Nat) (rest : List Char) :
    parseVal (f + 1) ('n' :: ('u' :: 'l' :: 'l' :: rest)) = some (.null, rest) := by
  conv_lhs => rw [parseVal.eq_def]
  simp [skipWs_cons_not_ws (show isWsChar 'n' = false by decide)]

theorem pv_true (f : Nat) (rest : List Char) :
    parseVal (f + 1) ('t' :: ('r' :: 'u' :: 'e' :: rest)) = some (.bool true, rest) := by
  conv_lhs => rw [parseVal.eq_def]
  simp [skipWs_cons_not_ws (show isWsChar 't' = false by decide)]

theorem pv_false (f : Nat) (rest : List Char) :
    parseVal (f + 1) ('f' :: ('a' :: 'l' :: 's' :: 'e' :: rest)) =
      some (.bool false, rest) := by
  conv_lhs => rw [parseVal.eq_def]
  simp [skipWs_cons_not_ws (show isWsChar 'f' = false by decide)]

theorem pv_quote {cs s r : List Char} (hp : parseStrBody cs = some (s, r)) (f : Nat) :
    parseVal (f + 1) ('"' :: cs) = some (.str (String.mk s), r) := by
  conv_lhs => rw [parseVal.eq_def]
  simp [skipWs_cons_not_ws (show isWsChar '"' = false by decide), hp]

theorem pv_neg {cs r : List Char} {n : Nat} (hp : parseNatNum cs = some (n, r))
    (f : Nat) : parseVal (f + 1) ('-' :: cs) = some (.num (-(n : Int)), r) := by
  conv_lhs => rw [parseVal.eq_def]
  simp [skipWs_cons_not_ws (show isWsChar '-' = false by decide), hp]

theorem char_ne_of_isDigit {c c2 : Char} (h : c.isDigit = true)
    (h2 : c2.isDigit = false) : ¬ c = c2 := by
  intro he; subst he; rw [h] at h2; exact absurd h2 (by decide)

theorem pv_digit {c : Char} (hd : c.isDigit = true) {cs r : List Char} {n : Nat}
    (hp : parseNatNum (c :: cs) = some (n, r)) (f : Nat) :
    parseVal (f + 1) (c :: cs) = some (.num (n : Int), r) := by
  have e1 : ¬ c = ' ' := char_ne_of_isDigit hd (by decide)
  have e2 : ¬ c = '\n' := char_ne_of_isDigit hd (by decide)
  have e3 : ¬ c = '\t' := char_ne_of_isDigit hd (by decide)
  have e4 : ¬ c = '\r' := char_ne_of_isDigit hd (by decide)
  have hws : isWsChar c = false := by simp [isWsChar, e1, e2, e3, e4]
  have hn : ¬ c = 'n' := char_ne_of_isDigit hd (by decide)
  have ht : ¬ c = 't' := char_ne_of_isDigit hd (by decide)
  have hf : ¬ c = 'f' := char_ne_of_isDigit hd (by decide)
  have hq : ¬ c = '"' := char_ne_of_isDigit hd (by decide)
  have hm : ¬ c = '-' := char_ne_of_isDigit hd (by decide)
  conv_lhs => rw [parseVal.eq_def]
  simp [skipWs_cons_not_ws hws, hn, ht, hf, hq, hm, hd, hp]

theorem pv_arr_empty (f : Nat) (rest : List Char) :
    parseVal (f + 1) ('[' :: (']' :: rest)) = some (.arr [], rest) := by
  conv_lhs => rw [parseVal.eq_def]
  simp [skipWs_cons_not_ws (show isWsChar '[' = false by decide),
    skipWs_cons_not_ws (show isWsChar ']' = false by decide)]

theorem pv_arr {cs cs0 r : List Char} {c0 : Char} {items : List Json}
    (h : skipWs cs = c0 :: cs0) (hc0 : ¬ c0 = ']')
    (hp : parseArrItems f (c0 :: cs0) = some (items, r)) :
    parseVal (f + 1) ('[' :: cs) = some (.arr items, r) := by
  conv_lhs => rw [parseVal.eq_def]
  simp [skipWs_cons_not_ws (show isWsChar '[' = false by decide), h, hc0, hp]

theorem pv_obj_empty (f : Nat) (rest : List Char) :
    parseVal (f + 1) (Char.ofNat 123 :: (Char.ofNat 125 :: rest)) =
      some (.obj [], rest) := by
  conv_lhs => rw [parseVal.eq_def]
  simp [skipWs_cons_not_ws (show isWsChar (Char.ofNat 123) = false by decide),
    skipWs_cons_not_ws (show isWsChar (Char.ofNat 125) = false by decide)]

theorem pv_obj {cs cs0 r : List Char} {c0 : Char} {fields : List (String × Json)}
    (h : skipWs cs = c0 :: cs0) (hc0 : ¬ c0 = Char.ofNat 125)
    (hp : parseObjFields f (c0 :: cs0) = some (fields, r)) :
    parseVal (f + 1) (Char.ofNat 123 :: cs) = some (.obj fields, r) := by
  conv_lhs => rw [parseVal.eq_def]
  simp [skipWs_cons_not_ws (show isWsChar (Char.ofNat 123) = false by decide),
    h, hc0, hp]

theorem pa_last {input r1 r2 : List Char} {v : Json}
    (hp : parseVal f input = some (v, r1)) (h2 : skipWs r1 = ']' :: r2) :
    parseArrItems (f + 1) input = some ([v], r2) := by
  conv_lhs => rw [parseArrItems.eq_def]
  simp [hp, h2]

theorem pa_cons {input r1 r2 r3 : List Char} {v : Json} {vs : List Json}
    (hp : parseVal f input = some (v, r1)) (h2 : skipWs r1 = ',' :: r2)
    (h3 : parseArrItems f r2 = some (vs, r3)) :
    parseArrItems (f + 1) input = some (v :: vs, r3) := by
  conv_lhs => rw [parseArrItems.eq_def]
  simp [hp, h2, h3]

theorem pf_last {input cs kd r1 r2 r3 r4 : List Char} {v : Json}
    (h0 : skipWs input = '"' :: cs) (h1 : parseStrBody cs = some (kd, r1))
    (h2 : skipWs r1 = ':' :: r2) (h3 : parseVal f r2 = some (v, r3))
    (h4 : skipWs r3 = Char.ofNat 125 :: r4) :
    parseObjFields (f + 1) input = some ([(String.mk kd, v)], r4) := by
  conv_lhs => rw [parseObjFields.eq_def]
  simp [h0, h1, h2, h3, h4]

theorem pf_cons {input cs kd r1 r2 r3 r4 r5 : List Char} {v : Json}
    {fields : List (String × Json)}
    (h0 : skipWs input = '"' :: cs) (h1 : parseStrBody cs = some (kd, r1))
    (h2 : skipWs r1 = ':' :: r2) (h3 : parseVal f r2 = some (v, r3))
    (h4 : skipWs r3 = ',' :: r4) (h5 : parseObjFields f r4 = some (fields, r5)) :
    parseObjFields (f + 1) input = some ((String.mk kd, v) :: fields, r5) := by
  conv_lhs => rw [parseObjFields.eq_def]
  simp [h0, h1, h2, h3, h4, h5]

theorem digitChar_ne_rbracket {d : Nat} (h : d < 10) : ¬ digitChar d = ']' := by
  interval_cases d <;> decide

theorem pv_num (n : Int) {rest : List Char} (hrest : noDigitHead rest = true)
    (f : Nat) : parseVal (f + 1) (intChars n ++ rest) = some (.num n, rest) := by
  by_cases hneg : n < 0
  · have hm : ((-n).toNat : Int) = -n := Int.toNat_of_nonneg (by omega)
    simp only [intChars, if_pos hneg, List.cons_append]
    rw [pv_neg (parseNatNum_natChars (-n).toNat hrest) f, hm, neg_neg]
  · have hm : ((n.toNat : Nat) : Int) = n := Int.toNat_of_nonneg (by omega)
    simp only [intChars, if_neg hneg]
    obtain ⟨d, ds, hds, hd⟩ := natCharsAux_head (show n.toNat < n.toNat + 1 by omega)
    have hpn := parseNatNum_natChars n.toNat hrest
    unfold natChars at hpn ⊢
    rw [hds, List.cons_append] at hpn ⊢
    rw [pv_digit (digitChar_isDigit hd) hpn f, hm]

theorem itemLead_ws (pretty : Bool) (lvl : Nat) :
    ∀ c ∈ itemLead pretty lvl, isWsChar c = true := by
  cases pretty
  · simp [itemLead]
  · simpa [itemLead] using indentChars_ws lvl

theorem itemSep_eq (pretty : Bool) :
    itemSep pretty = ',' :: itemSepTail pretty := by
  cases pretty <;> rfl

theorem itemSepTail_ws (pretty : Bool) :
    ∀ c ∈ itemSepTail pretty, isWsChar c = true := by
  cases pretty <;> simp [itemSepTail, isWsChar]

theorem noDigitHead_itemSep (pretty : Bool) (X : List Char) :
    noDigitHead (itemSep pretty ++ X) = true := by
  rw [itemSep_eq]; simp [noDigitHead]

theorem noDigitHead_closeWs {c : Char} (h : c.isDigit = false) (pretty : Bool)
    (lvl : Nat) (rest : List Char) :
    noDigitHead (closeWs pretty lvl ++ (c :: rest)) = true := by
  cases pretty
  · simp [closeWs, noDigitHead, h]
  · simp [closeWs, noDigitHead]

theorem skipWs_closeWs_cons {c : Char} (h : isWsChar c = false) (pretty : Bool)
    (lvl : Nat) (rest : List Char) :
    skipWs (closeWs pretty lvl ++ (c :: rest)) = c :: rest := by
  rw [skipWs_closeWs, skipWs_cons_not_ws h]

theorem ppVal_head (pretty : Bool) (lvl : Nat) (v : Json) :
    ∃ c cs, ppVal pretty lvl v = c :: cs ∧ isWsChar c = false ∧ ¬ c = ']' := by
  cases v with
  | null => exact ⟨'n', _, rfl, by decide, by decide⟩
  | bool b => cases b
              · exact ⟨'f', _, rfl, by decide, by decide⟩
              · exact ⟨'t', _, rfl, by decide, by decide⟩
  | num n =>
    by_cases hneg : n < 0
    · refine ⟨'-', natChars (-n).toNat, ?_, by decide, by decide⟩
      show intChars n = _
      simp [intChars, if_pos hneg]
    · obtain ⟨d, ds, hds, hd⟩ := natCharsAux_head (show n.toNat < n.toNat + 1 by omega)
      refine ⟨digitChar d, ds, ?_, digitChar_not_ws hd, digitChar_ne_rbracket hd⟩
      show intChars n = _
      simp [intChars, if_neg hneg, natChars, hds]
  | str s => exact ⟨'"', _, rfl, by decide, by decide⟩
  | arr l =>
    cases l with
    | nil => exact ⟨'[', _, rfl, by decide, by decide⟩
    | cons x xs => exact ⟨'[', _, rfl, by decide, by decide⟩
  | obj l =>
    cases l with
    | nil => exact ⟨Char.ofNat 123, _, rfl, by decide, by decide⟩
    | cons kv kvs => exact ⟨Char.ofNat 123, _, rfl, by decide, by decide⟩

theorem openWs_ws (pretty : Bool) : ∀ c ∈ openWs pretty, isWsChar c = true := by
  cases pretty <;> simp [openWs, isWsChar]

theorem space_ws : ∀ c ∈ [' '], isWsChar c = true := by
  simp [isWsChar]

theorem jfuel_pos (v : Json) : 1 ≤ jfuel v := by
  cases v <;> simp [jfuel]

theorem parse_pp (fuel : Nat) :
    (∀ (pretty : Bool) (lvl : Nat) (v : Json) (rest : List Char),
      jfuel v ≤ fuel → noDigitHead rest = true →
      parseVal fuel (ppVal pretty lvl v ++ rest) = some (v, rest)) ∧
    (∀ (pretty : Bool) (lvl lvl2 : Nat) (x : Json) (xs : List Json)
      (rest : List Char), jfuelItems (x :: xs) ≤ fuel →
      parseArrItems fuel (ppItems pretty lvl (x :: xs) ++
        (closeWs pretty lvl2 ++ (']' :: rest))) = some (x :: xs, rest)) ∧
    (∀ (pretty : Bool) (lvl lvl2 : Nat) (kv : String × Json)
      (kvs : List (String × Json)) (rest : List Char),
      jfuelFields (kv :: kvs) ≤ fuel →
      parseObjFields fuel (ppFields pretty lvl (kv :: kvs) ++
        (closeWs pretty lvl2 ++ (Char.ofNat 125 :: rest))) =
        some (kv :: kvs, rest)) := by
  induction fuel with
  | zero =>
    refine ⟨fun pretty lvl v rest hfu _ => ?_, fun pretty lvl lvl2 x xs rest hfu => ?_,
      fun pretty lvl lvl2 kv kvs rest hfu => ?_⟩
    · have := jfuel_pos v; omega
    · simp [jfuelItems] at hfu
    · obtain ⟨k, v⟩ := kv; simp [jfuelFields] at hfu
  | succ f ih =>
    obtain ⟨ihv, ihi, ihf⟩ := ih
    have habsSpace : ∀ Y, parseVal f (' ' :: Y) = parseVal f Y := by
      intro Y
      have := parseVal_ws_absorb f space_ws Y
      simpa using this
    refine ⟨fun pretty lvl v rest hfu hrest => ?_,
      fun pretty lvl lvl2 x xs rest hfu => ?_,
      fun pretty lvl lvl2 kv kvs rest hfu => ?_⟩
    · -- parseVal on a printed value
      cases v with
      | null =>
        simp only [ppVal, List.cons_append, List.nil_append]
        exact pv_null f rest
      | bool b =>
        cases b
        · simp only [ppVal, List.cons_append, List.nil_append]
          exact pv_false f rest
        · simp only [ppVal, List.cons_append, List.nil_append]
          exact pv_true f rest
      | num n =>
        simp only [ppVal]
        exact pv_num n hrest f
      | str s =>
        simp only [ppVal, strChars, List.cons_append, List.append_assoc,
          List.singleton_append, List.nil_append]
        rw [pv_quote (parseStrBody_escStr s.data rest) f]
      | arr l =>
        cases l with
        | nil =>
          simp only [ppVal, List.cons_append, List.nil_append]
          exact pv_arr_empty f rest
        | cons x xs =>
          simp only [ppVal, List.cons_append, List.append_assoc,
            List.singleton_append]
          have hfu2 : jfuelItems (x :: xs) ≤ f := by
            simp only [jfuel] at hfu; omega
          have hitems := ihi pretty (lvl + 1) lvl x xs rest hfu2
          obtain ⟨c0, cs0, hx, hws, hrb⟩ := ppVal_head pretty (lvl + 1) x
          obtain ⟨T, hT⟩ : ∃ T,
              ppItems pretty (lvl + 1) (x :: xs) ++
                (closeWs pretty lvl ++ (']' :: rest)) =
              itemLead pretty (lvl + 1) ++ (ppVal pretty (lvl + 1) x ++ T) := by
            cases xs with
            | nil =>
              exact ⟨closeWs pretty lvl ++ (']' :: rest),
                by simp [ppItems, List.append_assoc]⟩
            | cons y ys =>
              exact ⟨itemSep pretty ++ (ppItems pretty (lvl + 1) (y :: ys) ++
                (closeWs pretty lvl ++ (']' :: rest))),
                by simp [ppItems, List.append_assoc]⟩
          have hskip : skipWs (openWs pretty ++
              (ppItems pretty (lvl + 1) (x :: xs) ++
                (closeWs pretty lvl ++ (']' :: rest)))) = c0 :: (cs0 ++ T) := by
            rw [skipWs_openWs, hT, skipWs_itemLead, hx, List.cons_append,
              skipWs_cons_not_ws hws]
          have hitems2 : parseArrItems f (c0 :: (cs0 ++ T)) = some (x :: xs, rest) := by
            rw [← hskip, parseArrItems_skipWs,
              parseArrItems_ws_absorb f (openWs_ws pretty), hitems]
          exact pv_arr hskip hrb hitems2
      | obj l =>
        cases l with
        | nil =>
          simp only [ppVal, List.cons_append, List.nil_append]
          exact pv_obj_empty f rest
        | cons kv kvs =>
          obtain ⟨k, v⟩ := kv
          simp only [ppVal, List.cons_append, List.append_assoc,
            List.singleton_append]
          have hfu2 : jfuelFields ((k, v) :: kvs) ≤ f := by
            simp only [jfuel] at hfu; omega
          have hfields := ihf pretty (lvl + 1) lvl (k, v) kvs rest hfu2
          obtain ⟨T, hT⟩ : ∃ T,
              ppFields pretty (lvl + 1) ((k, v) :: kvs) ++
                (closeWs pretty lvl ++ (Char.ofNat 125 :: rest)) =
              itemLead pretty (lvl + 1) ++ ('"' :: T) := by
            cases kvs with
            | nil =>
              refine ⟨escStr k.data ++ ('"' :: (':' :: (' ' ::
                (ppVal pretty (lvl + 1) v ++ (closeWs pretty lvl ++
                  (Char.ofNat 125 :: rest)))))), ?_⟩
              simp [ppFields, strChars, List.append_assoc]
            | cons kv2 kvs2 =>
              refine ⟨escStr k.data ++ ('"' :: (':' :: (' ' ::
                (ppVal pretty (lvl + 1) v ++ (itemSep pretty ++
                  (ppFields pretty (lvl + 1) (kv2 :: kvs2) ++
                    (closeWs pretty lvl ++ (Char.ofNat 125 :: rest)))))))), ?_⟩
              simp [ppFields, strChars, List.append_assoc]
          have hskip : skipWs (openWs pretty ++
              (ppFields pretty (lvl + 1) ((k, v) :: kvs) ++
                (closeWs pretty lvl ++ (Char.ofNat 125 :: rest)))) = '"' :: T := by
            rw [skipWs_openWs, hT, skipWs_itemLead,
              skipWs_cons_not_ws (by decide : isWsChar '"' = false)]
          have hfields2 : parseObjFields f ('"' :: T) = some ((k, v) :: kvs, rest) := by
            rw [← hskip, parseObjFields_skipWs,
              parseObjFields_ws_absorb f (openWs_ws pretty), hfields]
          exact pv_obj hskip (by decide) hfields2
    · -- parseArrItems on printed items
      cases xs with
      | nil =>
        simp only [ppItems, List.append_assoc]
        have hjx : jfuel x ≤ f := by simp only [jfuelItems] at hfu; omega
        have hnd : noDigitHead (closeWs pretty lvl2 ++ (']' :: rest)) = true :=
          noDigitHead_closeWs (by decide) pretty lvl2 rest
        have hv : parseVal f (itemLead pretty lvl ++ (ppVal pretty lvl x ++
            (closeWs pretty lvl2 ++ (']' :: rest)))) =
            some (x, closeWs pretty lvl2 ++ (']' :: rest)) := by
          rw [parseVal_ws_absorb f (itemLead_ws pretty lvl)]
          exact ihv pretty lvl x _ hjx hnd
        exact pa_last hv (skipWs_closeWs_cons (by decide) pretty lvl2 rest)
      | cons y ys =>
        simp only [ppItems, List.append_assoc]
        have hjx : jfuel x ≤ f := by simp only [jfuelItems] at hfu; omega
        have hjy : jfuelItems (y :: ys) ≤ f := by
          simp only [jfuelItems] at hfu ⊢; omega
        have hnd : noDigitHead (itemSep pretty ++
            (ppItems pretty lvl (y :: ys) ++
              (closeWs pretty lvl2 ++ (']' :: rest)))) = true :=
          noDigitHead_itemSep pretty _
        have hv : parseVal f (itemLead pretty lvl ++ (ppVal pretty lvl x ++
            (itemSep pretty ++ (ppItems pretty lvl (y :: ys) ++
              (closeWs pretty lvl2 ++ (']' :: rest)))))) =
            some (x, itemSep pretty ++ (ppItems pretty lvl (y :: ys) ++
              (closeWs pretty lvl2 ++ (']' :: rest)))) := by
          rw [parseVal_ws_absorb f (itemLead_ws pretty lvl)]
          exact ihv pretty lvl x _ hjx hnd
        have h2 : skipWs (itemSep pretty ++ (ppItems pretty lvl (y :: ys) ++
            (closeWs pretty lvl2 ++ (']' :: rest)))) =
            ',' :: (itemSepTail pretty ++ (ppItems pretty lvl (y :: ys) ++
              (closeWs pretty lvl2 ++ (']' :: rest)))) := by
          rw [itemSep_eq, List.cons_append,
            skipWs_cons_not_ws (by decide : isWsChar ',' = false)]
        have h3 : parseArrItems f (itemSepTail pretty ++
            (ppItems pretty lvl (y :: ys) ++
              (closeWs pretty lvl2 ++ (']' :: rest)))) =
            some (y :: ys, rest) := by
          rw [parseArrItems_ws_absorb f (itemSepTail_ws pretty)]
          exact ihi pretty lvl lvl2 y ys rest hjy
        exact pa_cons hv h2 h3
    · -- parseObjFields on printed fields
      obtain ⟨k, v⟩ := kv
      cases kvs with
      | nil =>
        simp only [ppFields, strChars, List.append_assoc, List.cons_append,
          List.singleton_append, List.nil_append]
        rw [parseObjFields_ws_absorb (f + 1) (itemLead_ws pretty lvl)]
        have hjv : jfuel v ≤ f := by simp only [jfuelFields] at hfu; omega
        have hnd : noDigitHead (closeWs pretty lvl2 ++
            (Char.ofNat 125 :: rest)) = true :=
          noDigitHead_closeWs (by decide) pretty lvl2 rest
        have h3 : parseVal f (' ' :: (ppVal pretty lvl v ++
            (closeWs pretty lvl2 ++ (Char.ofNat 125 :: rest)))) =
            some (v, closeWs pretty lvl2 ++ (Char.ofNat 125 :: rest)) := by
          rw [habsSpace]
          exact ihv pretty lvl v _ hjv hnd
        exact pf_last (skipWs_cons_not_ws (by decide) _)
          (parseStrBody_escStr k.data _) (skipWs_cons_not_ws (by decide) _) h3
          (skipWs_closeWs_cons (by decide) pretty lvl2 rest)
      | cons kv2 kvs2 =>
        simp only [ppFields, strChars, List.append_assoc, List.cons_append,
          List.singleton_append, List.nil_append]
        rw [parseObjFields_ws_absorb (f + 1) (itemLead_ws pretty lvl)]
        have hjv : jfuel v ≤ f := by simp only [jfuelFields] at hfu; omega
        have hjk : jfuelFields (kv2 :: kvs2) ≤ f := by
          obtain ⟨k2, v2⟩ := kv2
          simp only [jfuelFields] at hfu ⊢; omega
        have hnd : noDigitHead (itemSep pretty ++
            (ppFields pretty lvl (kv2 :: kvs2) ++
              (closeWs pretty lvl2 ++ (Char.ofNat 125 :: rest)))) = true :=
          noDigitHead_itemSep pretty _
        have h3 : parseVal f (' ' :: (ppVal pretty lvl v ++
            (itemSep pretty ++ (ppFields pretty lvl (kv2 :: kvs2) ++
              (closeWs pretty lvl2 ++ (Char.ofNat 125 :: rest)))))) =
            some (v, itemSep pretty ++ (ppFields pretty lvl (kv2 :: kvs2) ++
              (closeWs pretty lvl2 ++ (Char.ofNat 125 :: rest)))) := by
          rw [habsSpace]
          exact ihv pretty lvl v _ hjv hnd
        have h4 : skipWs (itemSep pretty ++
            (ppFields pretty lvl (kv2 :: kvs2) ++
              (closeWs pretty lvl2 ++ (Char.ofNat 125 :: rest)))) =
            ',' :: (itemSepTail pretty ++ (ppFields pretty lvl (kv2 :: kvs2) ++
              (closeWs pretty lvl2 ++ (Char.ofNat 125 :: rest)))) := by
          rw [itemSep_eq, List.cons_append,
            skipWs_cons_not_ws (by decide : isWsChar ',' = false)]
        have h5 : parseObjFields f (itemSepTail pretty ++
            (ppFields pretty lvl (kv2 :: kvs2) ++
              (closeWs pretty lvl2 ++ (Char.ofNat 125 :: rest)))) =
            some (kv2 :: kvs2, rest) := by
          rw [parseObjFields_ws_absorb f (itemSepTail_ws pretty)]
          exact ihf pretty lvl lvl2 kv2 kvs2 rest hjk
        exact pf_cons (skipWs_cons_not_ws (by decide) _)
          (parseStrBody_escStr k.data _) (skipWs_cons_not_ws (by decide) _)
          h3 h4 h5

theorem itemSep_length (pretty : Bool) : (itemSep pretty).length = 2 := by
  cases pretty <;> rfl

mutual

theorem jfuel_le_len (pretty : Bool) (lvl : Nat) (v : Json) :
    jfuel v ≤ (ppVal pretty lvl v).length := by
  cases v with
  | null => simp [jfuel, ppVal]
  | bool b => cases b <;> simp [jfuel, ppVal]
  | num n =>
    obtain ⟨c, cs, h, _, _⟩ := ppVal_head pretty lvl (.num n)
    simp [jfuel, h]
  | str s => simp [jfuel, ppVal, strChars]
  | arr l =>
    cases l with
    | nil => simp [jfuel, jfuelItems, ppVal]
    | cons x xs =>
      have hi := jfuelItems_le_len pretty (lvl + 1) x xs
      simp only [jfuel, ppVal, List.length_cons, List.length_append]
      omega
  | obj l =>
    cases l with
    | nil => simp [jfuel, jfuelFields, ppVal]
    | cons kv kvs =>
      have hi := jfuelFields_le_len pretty (lvl + 1) kv kvs
      simp only [jfuel, ppVal, List.length_cons, List.length_append]
      omega
termination_by sizeOf v

theorem jfuelItems_le_len (pretty : Bool) (lvl : Nat) (x : Json) (xs : List Json) :
    jfuelItems (x :: xs) ≤ (ppItems pretty lvl (x :: xs)).length + 1 := by
  cases xs with
  | nil =>
    have hv := jfuel_le_len pretty lvl x
    simp only [jfuelItems, ppItems, List.length_append]
    omega
  | cons y ys =>
    have hv := jfuel_le_len pretty lvl x
    have hi := jfuelItems_le_len pretty lvl y ys
    simp only [jfuelItems, ppItems, List.length_append, itemSep_length] at hi ⊢
    omega
termination_by sizeOf x + sizeOf xs

theorem jfuelFields_le_len (pretty : Bool) (lvl : Nat) (kv : String × Json)
    (kvs : List (String × Json)) :
    jfuelFields (kv :: kvs) ≤ (ppFields pretty lvl (kv :: kvs)).length + 1 := by
  obtain ⟨k, v⟩ := kv
  cases kvs with
  | nil =>
    have hv := jfuel_le_len pretty lvl v
    simp only [jfuelFields, ppFields, List.length_append, List.length_cons]
    omega
  | cons kv2 kvs2 =>
    have hv := jfuel_le_len pretty lvl v
    have hi := jfuelFields_le_len pretty lvl kv2 kvs2
    simp only [jfuelFields, ppFields, List.length_append, List.length_cons,
      itemSep_length] at hi ⊢
    omega
termination_by sizeOf kv + sizeOf kvs

end


theorem loads_pp (pretty : Bool) (v : Json) :
    loads (String.mk (ppVal pretty 0 v)) = some v := by
  have hfu : jfuel v ≤ (ppVal pretty 0 v).length + 1 := by
    have := jfuel_le_len pretty 0 v; omega
  have hp := (parse_pp ((ppVal pretty 0 v).length + 1)).1 pretty 0 v [] hfu rfl
  simp only [List.append_nil] at hp
  show (match parseVal ((ppVal pretty 0 v).length + 1) (ppVal pretty 0 v) with
        | some (w, rest) => if skipWs rest = [] then some w else none
        | none => none) = some v
  rw [hp]
  simp [skipWs]

/-- `json.loads(json.dumps(v)) == v`: compact printing round-trip. -/
theorem loads_dumps (v : Json) : loads (dumps v) = some v := loads_pp false v

/-- `json.loads(json.dumps(v, indent=2)) == v`: pretty-printing round-trip. -/
theorem loads_dumpsIndent2 (v : Json) : loads (dumpsIndent2 v) = some v :=
  loads_pp true v

theorem toolTry_raises {env : Env} {st : PState} {e : PyExn}
    (h : env.invoke st.invCount = .raises e) (nm : Json) (args : ArgVal)
    (cid : Json) :
    toolTry env st nm args cid =
      { st with
        events := st.events ++ [.toolInvocation nm args]
        invCount := st.invCount + 1
        finalText := st.finalText ++
          [.str ("❌ Tool execution failed: " ++ e)] } := by
  simp [toolTry, PState.pushEvent, PState.pushText, h]

theorem toolTry_error_flag {env : Env} {st : PState} {r : CallToolResult}
    (h : env.invoke st.invCount = .returns r) (ht : truthy r.error = true)
    (nm : Json) (args : ArgVal) (cid : Json) :
    toolTry env st nm args cid =
      { st with
        events := st.events ++ [.toolInvocation nm args]
        invCount := st.invCount + 1
        finalText := st.finalText ++
          [.str ("⚠️ Tool error: " ++ strPy (rawContentOf r))] } := by
  simp [toolTry, PState.pushEvent, PState.pushText, h, ht, rawContentOf]

theorem toolTry_ok {env : Env} {st : PState} {r : CallToolResult}
    (h : env.invoke st.invCount = .returns r) (ht : truthy r.error = false)
    (nm : Json) (args : ArgVal) (cid : Json) :
    ∃ tail,
      toolTry env st nm args cid =
        { st with
          finalText := st.finalText ++
            (.str ("🔧 Tool " ++ strPy nm ++ " result:\n" ++
              formatContent (rawContentOf r)) :: tail)
          messages := st.messages ++
            [mkToolTurn cid nm (formatContent (rawContentOf r))]
          events := st.events ++
            [.toolInvocation nm args,
             .turnAppend (mkToolTurn cid nm (formatContent (rawContentOf r))),
             .completionRequest (st.messages ++
               [mkToolTurn cid nm (formatContent (rawContentOf r))]) false]
          invCount := st.invCount + 1
          fuCount := st.fuCount + 1 } ∧
      tail.length ≤ 1 ∧
      allStrB tail = true ∧
      (isFailHttp (env.followup st.fuCount) →
        ∃ e, tail = [.str ("❌ Tool execution failed: " ++ e)]) := by
  cases hfu : env.followup st.fuCount with
  | raises e =>
    refine ⟨[.str ("❌ Tool execution failed: " ++ e)], ?_, by simp, by rfl,
      fun _ => ⟨e, rfl⟩⟩
    simp [toolTry, PState.pushEvent, PState.pushText, h, ht, hfu, rawContentOf]
  | responds status body =>
    by_cases hs : status = 200
    · subst hs
      cases hch : pyGet body "choices" .null with
      | error e =>
        refine ⟨[.str ("❌ Tool execution failed: " ++ e)], ?_, by simp, by rfl,
          fun hf => absurd rfl hf⟩
        simp [toolTry, PState.pushEvent, PState.pushText, h, ht, hfu, hch,
          rawContentOf]
      | ok choicesV =>
        by_cases htr : truthy choicesV = true
        · cases hfc : followupContent body with
          | error e =>
            refine ⟨[.str ("❌ Tool execution failed: " ++ e)], ?_, by simp,
              by rfl, fun hf => absurd rfl hf⟩
            simp [toolTry, PState.pushEvent, PState.pushText, h, ht, hfu, hch,
              htr, hfc, rawContentOf]
          | ok fa =>
            by_cases hfa : truthy fa = true
            · refine ⟨[.str ("📝 Final analysis:\n" ++ strPy fa)], ?_, by simp,
                by rfl, fun hf => absurd rfl hf⟩
              simp [toolTry, PState.pushEvent, PState.pushText, h, ht, hfu, hch,
                htr, hfc, hfa, rawContentOf]
            · refine ⟨[], ?_, by simp, by rfl, fun hf => absurd rfl hf⟩
              simp [toolTry, PState.pushEvent, PState.pushText, h, ht, hfu, hch,
                htr, hfc, hfa, rawContentOf]
        · refine ⟨[], ?_, by simp, by rfl, fun hf => absurd rfl hf⟩
          simp [toolTry, PState.pushEvent, PState.pushText, h, ht, hfu, hch, htr,
            rawContentOf]
    · refine ⟨[.str ("❌ Tool execution failed: " ++ groqErrMsg body)], ?_,
        by simp, by rfl, fun _ => ⟨groqErrMsg body, rfl⟩⟩
      simp [toolTry, PState.pushEvent, PState.pushText, h, ht, hfu, hs,
        rawContentOf]

theorem pyGetItemS_ok_obj {j : Json} {k : String} {v : Json}
    (h : pyGetItemS j k = .ok v) : ∃ l, j = .obj l := by
  cases j with
  | obj l => exact ⟨l, rfl⟩
  | null => simp [pyGetItemS] at h
  | bool b => simp [pyGetItemS] at h
  | num n => simp [pyGetItemS] at h
  | str s => simp [pyGetItemS] at h
  | arr l => simp [pyGetItemS] at h

theorem process_call_eq {c fn nm : Json} (hfn : pyGetItemS c "function" = .ok fn)
    (hnm : pyGetItemS fn "name" = .ok nm) (env : Env) (st : PState) :
    process_call env st c = .ok (toolTry env st nm (argValOf fn) (pyGetD c "id")) := by
  obtain ⟨l, rfl⟩ := pyGetItemS_ok_obj hnm
  simp [process_call, hfn, hnm, pyGet, pyGetD, argValOf]

/-- Per-call step summary: the transcript lines appended by one
well-formed tool call, with the counter book-keeping. -/
theorem toolTry_step (env : Env) (st : PState) (nm : Json) (args : ArgVal)
    (cid : Json) :
    ∃ block0,
      (toolTry env st nm args cid).finalText = st.finalText ++ block0 ∧
      (toolTry env st nm args cid).invCount = st.invCount + 1 ∧
      (toolTry env st nm args cid).fuCount =
        st.fuCount + (if attempted env st.invCount then 1 else 0) ∧
      block0 ≠ [] ∧
      (∀ e, env.invoke st.invCount = .raises e →
        block0 = [Json.str ("❌ Tool execution failed: " ++ e)]) ∧
      (∀ r, env.invoke st.invCount = .returns r → truthy r.error = true →
        block0 = [Json.str ("⚠️ Tool error: " ++ strPy (rawContentOf r))]) ∧
      (∀ r, env.invoke st.invCount = .returns r → truthy r.error = false →
        isFailHttp (env.followup st.fuCount) →
        ∃ e, Json.str ("❌ Tool execution failed: " ++ e) ∈ block0) := by
  cases h : env.invoke st.invCount with
  | raises e =>
    refine ⟨[Json.str ("❌ Tool execution failed: " ++ e)], ?_, ?_, ?_, by simp,
      ?_, ?_, ?_⟩
    · rw [toolTry_raises h]
    · rw [toolTry_raises h]
    · rw [toolTry_raises h]; simp [attempted, h]
    · intro e2 he2; cases he2; rfl
    · intro r hr; cases hr
    · intro r hr; cases hr
  | returns r =>
    by_cases ht : truthy r.error = true
    · refine ⟨[Json.str ("⚠️ Tool error: " ++ strPy (rawContentOf r))], ?_, ?_, ?_,
        by simp, ?_, ?_, ?_⟩
      · rw [toolTry_error_flag h ht]
      · rw [toolTry_error_flag h ht]
      · rw [toolTry_error_flag h ht]; simp [attempted, h, ht]
      · intro e2 he2; cases he2
      · intro r2 hr2 _; cases hr2; rfl
      · intro r2 hr2 htf; cases hr2; rw [ht] at htf; cases htf
    · have ht2 : truthy r.error = false := by
        cases htt : truthy r.error
        · rfl
        · exact absurd htt ht
      obtain ⟨tail, heq, _, _, hfail⟩ := toolTry_ok h ht2 nm args cid
      refine ⟨Json.str ("🔧 Tool " ++ strPy nm ++ " result:\n" ++
          formatContent (rawContentOf r)) :: tail, ?_, ?_, ?_, by simp, ?_, ?_, ?_⟩
      · rw [heq]
      · rw [heq]
      · rw [heq]; simp [attempted, h, ht2]
      · intro e2 he2; cases he2
      · intro r2 hr2 htt; cases hr2; rw [ht2] at htt; cases htt
      · intro r2 hr2 _ hf
        obtain ⟨e, he⟩ := hfail hf
        exact ⟨e, by simp [he]⟩

/-- Decomposition of the tool-call loop over a batch of well-formed
calls: no exception escapes, the transcript grows by one non-empty block
per call, strictly in arrival order, and the per-call blocks reflect the
invocation/follow-up failures of their own call only. -/
theorem process_calls_spec (env : Env) : ∀ (calls : List Json) (st : PState),
    (∀ c ∈ calls, WfCall c) →
    ∃ (st2 : PState) (blocks : List (List Json)),
      process_calls env st calls = (st2, none) ∧
      blocks.length = calls.length ∧
      st2.finalText = st.finalText ++ blocks.flatten ∧
      st2.invCount = st.invCount + calls.length ∧
      st2.fuCount = st.fuCount + countAttempted env st.invCount calls.length ∧
      (∀ i (hi : i < blocks.length),
        blocks.get ⟨i, hi⟩ ≠ [] ∧
        (∀ e, env.invoke (st.invCount + i) = .raises e →
          blocks.get ⟨i, hi⟩ = [Json.str ("❌ Tool execution failed: " ++ e)]) ∧
        (∀ r, env.invoke (st.invCount + i) = .returns r → truthy r.error = true →
          blocks.get ⟨i, hi⟩ =
            [Json.str ("⚠️ Tool error: " ++ strPy (rawContentOf r))]) ∧
        (∀ r, env.invoke (st.invCount + i) = .returns r → truthy r.error = false →
          isFailHttp (env.followup
            (st.fuCount + countAttempted env st.invCount i)) →
          ∃ e, Json.str ("❌ Tool execution failed: " ++ e) ∈
            blocks.get ⟨i, hi⟩)) := by
  intro calls
  induction calls with
  | nil =>
    intro st _
    exact ⟨st, [], rfl, rfl, by simp, by simp, by simp [countAttempted], by simp⟩
  | cons c cs ih =>
    intro st hwf
    obtain ⟨fn, nm, hfn, hnm⟩ := hwf c (by simp)
    obtain ⟨block0, hft, hinv, hfc, hne, hraise, hflag, hok⟩ :=
      toolTry_step env st nm (argValOf fn) (pyGetD c "id")
    obtain ⟨st2, blocks, hrun, hlen, hft2, hinv2, hfc2, hidx⟩ :=
      ih (toolTry env st nm (argValOf fn) (pyGetD c "id"))
        (fun c2 hc2 => hwf c2 (by simp [hc2]))
    refine ⟨st2, block0 :: blocks, ?_, by simp [hlen], ?_, ?_, ?_, ?_⟩
    · show process_calls env st (c :: cs) = (st2, none)
      rw [process_calls, process_call_eq hfn hnm env st]
      simpa using hrun
    · rw [hft2, hft]; simp
    · rw [hinv2, hinv]; simp [hlen]; omega
    · rw [hfc2, hfc, hinv]
      show _ = st.fuCount + countAttempted env st.invCount (cs.length + 1)
      rw [countAttempted]
      omega
    · intro i hi
      cases i with
      | zero =>
        refine ⟨by simpa using hne, ?_, ?_, ?_⟩
        · intro e he
          simpa using hraise e (by simpa using he)
        · intro r hr ht
          simpa using hflag r (by simpa using hr) ht
        · intro r hr ht hf
          have : isFailHttp (env.followup st.fuCount) := by
            simpa [countAttempted] using hf
          simpa using hok r (by simpa using hr) ht this
      | succ j =>
        have hj : j < blocks.length := by simpa [hlen] using hi
        obtain ⟨h1, h2, h3, h4⟩ := hidx j hj
        rw [hinv] at h2 h3 h4
        rw [hfc] at h4
        refine ⟨by simpa using h1, ?_, ?_, ?_⟩
        · intro e he
          have : env.invoke (st.invCount + 1 + j) = .raises e := by
            rw [show st.invCount + 1 + j = st.invCount + (j + 1) by omega]
            exact he
          simpa using h2 e this
        · intro r hr ht
          have : env.invoke (st.invCount + 1 + j) = .returns r := by
            rw [show st.invCount + 1 + j = st.invCount + (j + 1) by omega]
            exact hr
          simpa using h3 r this ht
        · intro r hr ht hf
          have hr2 : env.invoke (st.invCount + 1 + j) = .returns r := by
            rw [show st.invCount + 1 + j = st.invCount + (j + 1) by omega]
            exact hr
          have hf2 : isFailHttp (env.followup
              (st.fuCount + (if attempted env st.invCount then 1 else 0) +
                countAttempted env (st.invCount + 1) j)) := by
            have heq : st.fuCount + (if attempted env st.invCount then 1 else 0) +
                countAttempted env (st.invCount + 1) j =
                st.fuCount + countAttempted env st.invCount (j + 1) := by
              rw [countAttempted]; omega
            rw [heq]
            exact hf
          simpa using h4 r hr2 ht hf2

/-! ## Helper lemmas for the claim theorems -/

theorem allStrB_append {a b : List Json} (ha : allStrB a = true)
    (hb : allStrB b = true) : allStrB (a ++ b) = true := by
  simp only [allStrB, List.all_append, Bool.and_eq_true]
  exact ⟨ha, hb⟩

theorem allStrB_single (s : String) : allStrB [Json.str s] = true := rfl

theorem pyJoinStrs_of_allStr : ∀ {l : List Json}, allStrB l = true →
    ∃ ss, pyJoinStrs l = some ss ∧ l = ss.map Json.str := by
  intro l
  induction l with
  | nil => intro _; exact ⟨[], rfl, rfl⟩
  | cons e rest ih =>
    intro h
    simp only [allStrB, List.all_cons, Bool.and_eq_true] at h
    obtain ⟨he, hrest⟩ := h
    cases e with
    | str s =>
      obtain ⟨ss, h1, h2⟩ := ih hrest
      exact ⟨s :: ss, by simp [pyJoinStrs, h1], by simp [h2]⟩
    | null => cases he
    | bool b => cases he
    | num n => cases he
    | arr l2 => cases he
    | obj l2 => cases he

theorem pyJoin_of_allStr {l : List Json} (h : allStrB l = true) :
    ∃ ss, pyJoin l = .ok (String.intercalate "\n" ss) ∧ l = ss.map Json.str := by
  obtain ⟨ss, h1, h2⟩ := pyJoinStrs_of_allStr h
  exact ⟨ss, by simp [pyJoin, h1], h2⟩

theorem finishRun_allStr {st : PState} (h : allStrB st.finalText = true)
    (exn : Option PyExn) :
    ∃ lines, (finishRun st exn).output = .ok (String.intercalate "\n" lines) ∧
      (finishRun st exn).entries = lines.map Json.str := by
  cases exn with
  | none =>
    obtain ⟨ss, h1, h2⟩ := pyJoin_of_allStr h
    exact ⟨ss, by simpa [finishRun] using h1, by simpa [finishRun] using h2⟩
  | some e =>
    have h2 : allStrB (st.pushText
        (.str ("🚨 Critical error processing query: " ++ e))).finalText = true := by
      simp only [PState.pushText]
      exact allStrB_append h (allStrB_single _)
    obtain ⟨ss, h1, h3⟩ := pyJoin_of_allStr h2
    exact ⟨ss, by simpa [finishRun] using h1, by simpa [finishRun] using h3⟩

theorem toolTry_allStr {env : Env} {st : PState} (nm : Json) (args : ArgVal)
    (cid : Json) (h : allStrB st.finalText = true) :
    allStrB (toolTry env st nm args cid).finalText = true := by
  cases hi : env.invoke st.invCount with
  | raises e =>
    rw [toolTry_raises hi]
    exact allStrB_append h (allStrB_single _)
  | returns r =>
    by_cases ht : truthy r.error = true
    · rw [toolTry_error_flag hi ht]
      exact allStrB_append h (allStrB_single _)
    · have ht2 : truthy r.error = false := by
        cases htt : truthy r.error
        · rfl
        · exact absurd htt ht
      obtain ⟨tail, heq, _, hstr, _⟩ := toolTry_ok hi ht2 nm args cid
      rw [heq]
      refine allStrB_append h ?_
      simp only [allStrB, List.all_cons, Bool.and_eq_true]
      exact ⟨trivial, hstr⟩

theorem process_call_allStr {env : Env} {st : PState} {c : Json} {st2 : PState}
    (h : process_call env st c = .ok st2) (ha : allStrB st.finalText = true) :
    allStrB st2.finalText = true := by
  unfold process_call at h
  cases h1 : pyGetItemS c "function" with
  | error e => simp only [h1, reduceCtorEq] at h
  | ok fn =>
    simp only [h1] at h
    cases h2 : pyGetItemS fn "name" with
    | error e => simp only [h2, reduceCtorEq] at h
    | ok nm =>
      simp only [h2] at h
      cases h3 : pyGet fn "arguments" Json.null with
      | error e => simp only [h3, reduceCtorEq] at h
      | ok argsRaw =>
        simp only [h3, Except.ok.injEq] at h
        rw [← h]
        exact toolTry_allStr nm _ _ ha

theorem process_call_error_state {env : Env} {st : PState} {c : Json}
    {e : PyExn} {st2 : PState}
    (h : process_call env st c = .error (e, st2)) : st2 = st := by
  unfold process_call at h
  cases h1 : pyGetItemS c "function" with
  | error e2 =>
    simp only [h1, Except.error.injEq, Prod.mk.injEq] at h
    exact h.2.symm
  | ok fn =>
    simp only [h1] at h
    cases h2 : pyGetItemS fn "name" with
    | error e2 =>
      simp only [h2, Except.error.injEq, Prod.mk.injEq] at h
      exact h.2.symm
    | ok nm =>
      simp only [h2] at h
      cases h3 : pyGet fn "arguments" Json.null with
      | error e2 =>
        simp only [h3, Except.error.injEq, Prod.mk.injEq] at h
        exact h.2.symm
      | ok argsRaw => simp only [h3, reduceCtorEq] at h

theorem process_calls_allStr (env : Env) : ∀ (calls : List Json) (st : PState),
    allStrB st.finalText = true →
    allStrB (process_calls env st calls).1.finalText = true := by
  intro calls
  induction calls with
  | nil => intro st h; exact h
  | cons c cs ih =>
    intro st h
    show allStrB (match process_call env st c with
      | .error (e, st2) => (st2, some e)
      | .ok st2 => process_calls env st2 cs).1.finalText = true
    cases hc : process_call env st c with
    | error p =>
      obtain ⟨e, st2⟩ := p
      rw [process_call_error_state hc]
      exact h
    | ok st2 => exact ih st2 (process_call_allStr hc h)

/-- Under a successful tool listing and a 200 initial completion with a
well-shaped body, `process_query` is the tool-call loop run from the
canonical start state followed by the epilogue. -/
theorem process_query_eq {env : Env} {q : String}
    {ts : List (Json × Json × Json)} {body msg cv tcV : Json}
    (hlt : env.listTools = .ok ts)
    (hic : env.initialCompletion = .responds 200 body)
    (hmsg : extractMsg body = .ok msg)
    (hcv : contentOf msg = .ok cv)
    (htc : toolCallsOf msg = .ok tcV) {calls : List Json}
    (hit : pyIter tcV = .ok calls) :
    process_query env q =
      finishRun (process_calls env
        { finalText := if truthy cv then [cv] else []
          messages := [userTurn q]
          events := [.completionRequest [userTurn q] true]
          invCount := 0
          fuCount := 0 } calls).1
        (process_calls env
        { finalText := if truthy cv then [cv] else []
          messages := [userTurn q]
          events := [.completionRequest [userTurn q] true]
          invCount := 0
          fuCount := 0 } calls).2 := by
  cases htr : truthy cv <;>
    simp [process_query, hlt, hic, hmsg, hcv, htc, hit, htr,
      PState.pushEvent, PState.pushText]

theorem finishRun_none_entries (st : PState) :
    (finishRun st none).entries = st.finalText := rfl

/-- C1 amended: when the initial completion requests a batch of
*well-formed* tool calls, the transcript is the initial content (when
truthy) followed by one non-empty block per call, in request order; a
call whose invocation raises yields exactly its `❌ Tool execution
failed:` line, a truthy error flag yields exactly its `⚠️ Tool error:`
line, and a failing follow-up contributes an `❌ Tool execution failed:`
line inside the call's own block.  Contrary to the claim as stated, an
exception at the *parse* step never yields a per-call failure line: the
`json.loads` failure is swallowed by the fallback to the raw string and
the call proceeds normally (see the counterexample). -/
theorem c1_blocks {env : Env} {q : String} {ts : List (Json × Json × Json)}
    {body msg cv : Json} {calls : List Json}
    (hlt : env.listTools = .ok ts)
    (hic : env.initialCompletion = .responds 200 body)
    (hmsg : extractMsg body = .ok msg)
    (hcv : contentOf msg = .ok cv)
    (htc : toolCallsOf msg = .ok (.arr calls))
    (hwf : ∀ c ∈ calls, WfCall c) :
    ∃ blocks : List (List Json),
      (process_query env q).entries =
        (if truthy cv then [cv] else []) ++ blocks.flatten ∧
      blocks.length = calls.length ∧
      (∀ i (hi : i < blocks.length),
        blocks.get ⟨i, hi⟩ ≠ [] ∧
        (∀ e, env.invoke i = .raises e →
          blocks.get ⟨i, hi⟩ = [Json.str ("❌ Tool execution failed: " ++ e)]) ∧
        (∀ r, env.invoke i = .returns r → truthy r.error = true →
          blocks.get ⟨i, hi⟩ =
            [Json.str ("⚠️ Tool error: " ++ strPy (rawContentOf r))]) ∧
        (∀ r, env.invoke i = .returns r → truthy r.error = false →
          isFailHttp (env.followup (countAttempted env 0 i)) →
          ∃ e, Json.str ("❌ Tool execution failed: " ++ e) ∈
            blocks.get ⟨i, hi⟩)) := by
  rw [process_query_eq hlt hic hmsg hcv htc rfl]
  obtain ⟨st2, blocks, hrun, hlen, hft, _, _, hidx⟩ :=
    process_calls_spec env calls
      { finalText := if truthy cv then [cv] else []
        messages := [userTurn q]
        events := [.completionRequest [userTurn q] true]
        invCount := 0
        fuCount := 0 } hwf
  rw [hrun]
  refine ⟨blocks, ?_, hlen, ?_⟩
  · rw [finishRun_none_entries, hft]
  · intro i hi
    obtain ⟨h1, h2, h3, h4⟩ := hidx i hi
    simp only [Nat.zero_add] at h2 h3 h4
    exact ⟨h1, h2, h3, h4⟩

theorem intercalate_single (sep s : String) : String.intercalate sep [s] = s := by
  simp [String.intercalate, String.intercalate.go]

theorem pyJoin_single (s : String) : pyJoin [Json.str s] = .ok s := by
  simp [pyJoin, pyJoinStrs, intercalate_single]

theorem pyJoin_nil : pyJoin [] = .ok "" := rfl

theorem append_ne_empty {a : String} (b : String) (h : ¬ a = "") :
    ¬ a ++ b = "" := by
  intro hc
  apply h
  have hl := congrArg String.length hc
  rw [String.length_append] at hl
  simp at hl
  have h0 : a.length = 0 := by omega
  cases a with
  | mk data =>
    cases data with
    | nil => rfl
    | cons c cs => simp [String.length] at h0

/-- C3 (confirmed): when the query is aborted by an upstream completion
failure — the initial completion call raises or returns a non-200 status
(e.g. HTTP 500) — the entire query output is the single transcript entry
`🚨 Critical error processing query: …`, and no other transcript lines
appear in the answer (nothing had been accumulated before this point, so
nothing else can survive into the output). -/
theorem c3_upstream_abort_single_line {env : Env} {q : String}
    {ts : List (Json × Json × Json)} (hlt : env.listTools = .ok ts)
    (hfail : isFailHttp env.initialCompletion) :
    ∃ m, (process_query env q).entries =
        [Json.str ("🚨 Critical error processing query: " ++ m)] ∧
      (process_query env q).output =
        .ok ("🚨 Critical error processing query: " ++ m) := by
  cases hic : env.initialCompletion with
  | raises e =>
    refine ⟨e, ?_, ?_⟩ <;>
      simp [process_query, hlt, hic, finishRun, PState.pushEvent,
        PState.pushText, pyJoin_single]
  | responds status body =>
    rw [hic] at hfail
    have hs : status ≠ 200 := hfail
    refine ⟨groqErrMsg body, ?_, ?_⟩ <;>
      simp [process_query, hlt, hic, hs, finishRun, PState.pushEvent,
        PState.pushText, pyJoin_single]

/-- Witness for C3: HTTP 500 on the initial completion produces exactly
the one critical line. -/
theorem c3_witness :
    ∃ m, (process_query c3wEnv "list patients").entries =
        [Json.str ("🚨 Critical error processing query: " ++ m)] ∧
      (process_query c3wEnv "list patients").output =
        .ok ("🚨 Critical error processing query: " ++ m) :=
  c3_upstream_abort_single_line rfl (by simp [c3wEnv, isFailHttp])

/-- C4 (confirmed): when the initial completion succeeds with zero
tool-call requests, `process_query` returns exactly the assistant's
textual content — the empty string when the content is absent. -/
theorem c4_zero_tool_calls_output {env : Env} {q : String}
    {ts : List (Json × Json × Json)} {body msg cv : Json}
    (hlt : env.listTools = .ok ts)
    (hic : env.initialCompletion = .responds 200 body)
    (hmsg : extractMsg body = .ok msg)
    (hcv : contentOf msg = .ok cv)
    (htc : toolCallsOf msg = .ok (.arr []))
    (hshape : cv = .null ∨ ∃ s, cv = .str s) :
    (process_query env q).output = .ok (contentText cv) := by
  rw [process_query_eq hlt hic hmsg hcv htc rfl]
  rcases hshape with h | ⟨s, h⟩
  · subst h
    simp [process_calls, finishRun, truthy, contentText, pyJoin_nil]
  · subst h
    by_cases hs0 : s = ""
    · subst hs0
      simp [process_calls, finishRun, truthy, contentText, pyJoin_nil]
    · have : truthy (.str s) = true := by simp [truthy, hs0]
      simp [process_calls, finishRun, this, contentText, pyJoin_single]

/-- Witness for C4 (Scenario A): a completion with content only. -/
theorem c4_witness :
    (process_query c4wEnv "list patients").output =
      .ok "Here are the patients." :=
  @c4_zero_tool_calls_output c4wEnv "list patients" []
    (choicesBody (.str "Here are the patients.") [])
    (.obj [("content", .str "Here are the patients."), ("tool_calls", .arr [])])
    (.str "Here are the patients.")
    rfl rfl rfl rfl rfl (Or.inr ⟨"Here are the patients.", rfl⟩)

/-- C5 (confirmed): when the remote reply carries a truthy error
indicator with string content `s`, the per-call outcome is exactly one
transcript line `⚠️ Tool error: s` (the content verbatim, no
pretty-printing), no `tool` turn is appended to the conversation, and no
follow-up completion request is issued (the only new event is the
invocation itself and the follow-up counter is unchanged). -/
theorem c5_error_flag_behavior {env : Env} {st : PState} {r : CallToolResult}
    {s : String} (h : env.invoke st.invCount = .returns r)
    (ht : truthy r.error = true) (hs : rawContentOf r = .str s)
    (nm : Json) (args : ArgVal) (cid : Json) :
    (toolTry env st nm args cid).finalText =
      st.finalText ++ [Json.str ("⚠️ Tool error: " ++ s)] ∧
    (toolTry env st nm args cid).messages = st.messages ∧
    (toolTry env st nm args cid).events =
      st.events ++ [.toolInvocation nm args] ∧
    (toolTry env st nm args cid).fuCount = st.fuCount := by
  rw [toolTry_error_flag h ht]
  refine ⟨?_, rfl, rfl, rfl⟩
  rw [hs]
  rfl

/-- Witness for C5 (Scenario C): an error-flagged reply with content
`Patient PT-9999 not found`. -/
theorem c5_witness :
    (toolTry c5wEnv c5wState (.str "fetch_patient_data_tool")
        (.parsed (.obj [])) (.str "id1")).finalText =
      c5wState.finalText ++ [Json.str "⚠️ Tool error: Patient PT-9999 not found"] ∧
    (toolTry c5wEnv c5wState (.str "fetch_patient_data_tool")
        (.parsed (.obj [])) (.str "id1")).messages = c5wState.messages ∧
    (toolTry c5wEnv c5wState (.str "fetch_patient_data_tool")
        (.parsed (.obj [])) (.str "id1")).events =
      c5wState.events ++ [.toolInvocation (.str "fetch_patient_data_tool")
        (.parsed (.obj []))] ∧
    (toolTry c5wEnv c5wState (.str "fetch_patient_data_tool")
        (.parsed (.obj [])) (.str "id1")).fuCount = c5wState.fuCount :=
  @c5_error_flag_behavior c5wEnv c5wState
    ⟨.textWrap (.str "Patient PT-9999 not found"), .bool true⟩
    "Patient PT-9999 not found" rfl rfl rfl
    (.str "fetch_patient_data_tool") (.parsed (.obj [])) (.str "id1")

/-- C8 (confirmed): a tool outcome whose content string is valid JSON,
when pretty-printed with 2-space indentation and re-parsed, is
structurally equal to the value parsed from the original content. -/
theorem c8_pretty_print_roundtrip (s : String) (v : Json)
    (h : loads s = some v) : loads (dumpsIndent2 v) = some v :=
  loads_dumpsIndent2 v

/-- Witness for C8 at a concrete JSON document. -/
theorem c8_witness :
    loads "\x7b\"id\": \"PT-1001\", \"labs\": [1, -2, null, true]\x7d" =
      some (.obj [("id", .str "PT-1001"),
        ("labs", .arr [.num 1, .num (-2), .null, .bool true])]) ∧
    loads (dumpsIndent2 (.obj [("id", .str "PT-1001"),
        ("labs", .arr [.num 1, .num (-2), .null, .bool true])])) =
      some (.obj [("id", .str "PT-1001"),
        ("labs", .arr [.num 1, .num (-2), .null, .bool true])]) :=
  ⟨rfl, c8_pretty_print_roundtrip
    "\x7b\"id\": \"PT-1001\", \"labs\": [1, -2, null, true]\x7d" _ rfl⟩

/-- Counterexample for C1 as stated: the tool-call arguments fail to
parse as JSON (an exception is raised and caught at the parse step — the
call is dispatched with the raw string), yet the transcript contains no
per-call failure line at all: the call's only line is its success line.
So an exception raised at the parse step does not yield a per-call
failure line. -/
theorem c1_counterexample :
    loads "\x7binvalid json" = none ∧
    (process_query c1cexEnv "q").events.get? 1 =
      some (.toolInvocation (.str "toolC") (.rawStr "\x7binvalid json")) ∧
    (process_query c1cexEnv "q").entries =
      [Json.str "🔧 Tool toolC result:\n\"ok\""] :=
  ⟨rfl, rfl, rfl⟩

/-- Witness for the amended C1 at a concrete two-call batch whose first
invocation raises and whose (single) follow-up returns HTTP 500. -/
theorem c1_witness :
    ∃ blocks : List (List Json),
      (process_query c1wEnv "q").entries = blocks.flatten ∧
      blocks.length = 2 ∧
      (∀ i (hi : i < blocks.length),
        blocks.get ⟨i, hi⟩ ≠ [] ∧
        (∀ e, c1wEnv.invoke i = .raises e →
          blocks.get ⟨i, hi⟩ = [Json.str ("❌ Tool execution failed: " ++ e)]) ∧
        (∀ r, c1wEnv.invoke i = .returns r → truthy r.error = true →
          blocks.get ⟨i, hi⟩ =
            [Json.str ("⚠️ Tool error: " ++ strPy (rawContentOf r))]) ∧
        (∀ r, c1wEnv.invoke i = .returns r → truthy r.error = false →
          isFailHttp (c1wEnv.followup (countAttempted c1wEnv 0 i)) →
          ∃ e, Json.str ("❌ Tool execution failed: " ++ e) ∈
            blocks.get ⟨i, hi⟩)) :=
  @c1_blocks c1wEnv "q" [] (choicesBody .null c1wCalls)
    (.obj [("content", .null), ("tool_calls", .arr c1wCalls)]) .null c1wCalls
    rfl rfl rfl rfl rfl
    (by
      intro c hc
      simp [c1wCalls] at hc
      rcases hc with h | h <;> subst h <;> exact ⟨_, _, rfl, rfl⟩)

/-- Counterexample for C2 as stated: the first call's follow-up
completion returns HTTP 500, yet the failure is handled as a per-tool
failure line, the second tool call still runs and produces its lines,
and the query is not aborted with a critical message — so a non-2xx
follow-up response does not abort the remainder of the query. -/
theorem c2_counterexample :
    (process_query c2cexEnv "q").entries =
      [Json.str "🔧 Tool toolA result:\n\"okres\"",
       Json.str "❌ Tool execution failed: Groq API error: fuboom",
       Json.str "🔧 Tool toolB result:\n\"okres\"",
       Json.str "📝 Final analysis:\nanalysis2"] ∧
    (process_query c2cexEnv "q").output =
      .ok ("🔧 Tool toolA result:\n\"okres\"\n❌ Tool execution failed: Groq API error: fuboom\n🔧 Tool toolB result:\n\"okres\"\n📝 Final analysis:\nanalysis2") :=
  ⟨rfl, rfl⟩

/-- C2 amended: a non-200 response to the *initial* completion aborts
the query as a critical failure (the whole answer is the single critical
line), while a non-200 response (or transport failure) on a *follow-up*
completion is caught by the per-tool handler: the call's block is its
result line followed by a `❌ Tool execution failed:` line, and
processing continues (the per-call step is a total function of the
state). -/
theorem c2_completion_failures {env : Env} {q : String}
    {ts : List (Json × Json × Json)} (hlt : env.listTools = .ok ts) :
    (∀ status body, env.initialCompletion = .responds status body →
      status ≠ 200 →
      (process_query env q).entries =
        [Json.str ("🚨 Critical error processing query: " ++ groqErrMsg body)]) ∧
    (∀ (st : PState) (nm : Json) (args : ArgVal) (cid : Json) r,
      env.invoke st.invCount = .returns r → truthy r.error = false →
      isFailHttp (env.followup st.fuCount) →
      ∃ e, (toolTry env st nm args cid).finalText =
        st.finalText ++
          [Json.str ("🔧 Tool " ++ strPy nm ++ " result:\n" ++
            formatContent (rawContentOf r)),
           Json.str ("❌ Tool execution failed: " ++ e)]) := by
  constructor
  · intro status body hic hs
    simp [process_query, hlt, hic, hs, finishRun, PState.pushEvent,
      PState.pushText]
  · intro st nm args cid r h ht hf
    obtain ⟨tail, heq, _, _, hfail⟩ := toolTry_ok h ht nm args cid
    obtain ⟨e, he⟩ := hfail hf
    refine ⟨e, ?_⟩
    rw [heq, he]

/-- Witness for the amended C2: a 502 initial completion gives the single
critical line, and a 503 follow-up gives a per-tool failure line. -/
theorem c2_witness :
    (process_query c2wEnv "q").entries =
      [Json.str ("🚨 Critical error processing query: Groq API error: bad gateway")] ∧
    ∃ e, (toolTry c2wEnv c2wST (.str "t") (.parsed (.obj [])) .null).finalText =
      c2wST.finalText ++
        [Json.str "🔧 Tool t result:\n\"x\"",
         Json.str ("❌ Tool execution failed: " ++ e)] :=
  ⟨(@c2_completion_failures c2wEnv "q" [] rfl).1 502
      (.obj [("error", .str "bad gateway")]) rfl (by omega),
   (@c2_completion_failures c2wEnv "q" [] rfl).2 c2wST (.str "t")
      (.parsed (.obj [])) .null ⟨.plain (.str "\"x\""), .bool false⟩ rfl rfl
      (by simp [c2wEnv, c2wST, isFailHttp])⟩

/-- Counterexample for C6 as stated: a tool call is processed and the
outcome's error flag is set, but no `tool` turn is appended to the
conversation state — the messages still hold only the user turn and the
event trace has no turn-append (the code `continue`s before the append),
contradicting "regardless of whether the outcome's error flag is set". -/
theorem c6_counterexample :
    (process_query c6cexEnv "q").entries =
      [Json.str "⚠️ Tool error: bad thing"] ∧
    (process_query c6cexEnv "q").messages = [userTurn "q"] ∧
    (process_query c6cexEnv "q").events =
      [.completionRequest [userTurn "q"] true,
       .toolInvocation (.str "toolZ") (.parsed (.obj []))] :=
  ⟨rfl, rfl, rfl⟩

/-- C6 amended: the `tool` turn (role `tool`, the call's id, the tool
name, the formatted result as content) is appended to the conversation
state, after the formatted result line, exactly when the invocation
returned without the error flag; when the error flag is set or the
invocation raises, no turn is appended. -/
theorem c6_tool_turn_appended {env : Env} {st : PState} (nm : Json)
    (args : ArgVal) (cid : Json) :
    (∀ r, env.invoke st.invCount = .returns r → truthy r.error = false →
      ∃ tail, (toolTry env st nm args cid).finalText =
          st.finalText ++ (Json.str ("🔧 Tool " ++ strPy nm ++ " result:\n" ++
            formatContent (rawContentOf r)) :: tail) ∧
        (toolTry env st nm args cid).messages =
          st.messages ++ [mkToolTurn cid nm (formatContent (rawContentOf r))] ∧
        (toolTry env st nm args cid).events =
          st.events ++ [.toolInvocation nm args,
            .turnAppend (mkToolTurn cid nm (formatContent (rawContentOf r))),
            .completionRequest (st.messages ++
              [mkToolTurn cid nm (formatContent (rawContentOf r))]) false]) ∧
    (∀ r, env.invoke st.invCount = .returns r → truthy r.error = true →
      (toolTry env st nm args cid).messages = st.messages) ∧
    (∀ e, env.invoke st.invCount = .raises e →
      (toolTry env st nm args cid).messages = st.messages) := by
  refine ⟨?_, ?_, ?_⟩
  · intro r h ht
    obtain ⟨tail, heq, _, _, _⟩ := toolTry_ok h ht nm args cid
    exact ⟨tail, by rw [heq], by rw [heq], by rw [heq]⟩
  · intro r h ht
    rw [toolTry_error_flag h ht]
  · intro e h
    rw [toolTry_raises h]

/-- Witness for the amended C6: a successful invocation appends the
`tool` turn right after the result line. -/
theorem c6_witness :
    ∃ tail, (toolTry c6wEnv c6wST (.str "toolY") (.parsed (.obj []))
        (.str "idy")).finalText =
        c6wST.finalText ++ (Json.str "🔧 Tool toolY result:\n\"ok\"" :: tail) ∧
      (toolTry c6wEnv c6wST (.str "toolY") (.parsed (.obj []))
        (.str "idy")).messages =
        c6wST.messages ++ [mkToolTurn (.str "idy") (.str "toolY") "\"ok\""] ∧
      (toolTry c6wEnv c6wST (.str "toolY") (.parsed (.obj []))
        (.str "idy")).events =
        c6wST.events ++ [.toolInvocation (.str "toolY") (.parsed (.obj [])),
          .turnAppend (mkToolTurn (.str "idy") (.str "toolY") "\"ok\""),
          .completionRequest (c6wST.messages ++
            [mkToolTurn (.str "idy") (.str "toolY") "\"ok\""]) false] :=
  (c6_tool_turn_appended (.str "toolY") (.parsed (.obj [])) (.str "idy")).1
    ⟨.plain (.str "\"ok\""), .bool false⟩ rfl rfl

theorem toolTry_events_head (env : Env) (st : PState) (nm : Json)
    (args : ArgVal) (cid : Json) :
    ∃ restEv, (toolTry env st nm args cid).events =
      st.events ++ (Event.toolInvocation nm args) :: restEv := by
  cases hi : env.invoke st.invCount with
  | raises e => exact ⟨[], by rw [toolTry_raises hi]⟩
  | returns r =>
    by_cases ht : truthy r.error = true
    · exact ⟨[], by rw [toolTry_error_flag hi ht]⟩
    · have ht2 : truthy r.error = false := by
        cases htt : truthy r.error
        · rfl
        · exact absurd htt ht
      obtain ⟨tail, heq, _, _, _⟩ := toolTry_ok hi ht2 nm args cid
      exact ⟨[.turnAppend (mkToolTurn cid nm (formatContent (rawContentOf r))),
        .completionRequest (st.messages ++
          [mkToolTurn cid nm (formatContent (rawContentOf r))]) false],
        by rw [heq]⟩

/-- C7 (confirmed): when the raw argument string of a well-formed
tool-call request fails to parse as JSON, the call is not aborted and
not marked failed at the parsing step: the loop body still runs the
invocation, dispatching it with the raw unparsed string as the argument
value (the invocation event carries `.rawStr s`). -/
theorem c7_parse_fallback {c fn nm : Json} {s : String}
    (hfn : pyGetItemS c "function" = .ok fn)
    (hnm : pyGetItemS fn "name" = .ok nm)
    (hargs : pyGetD fn "arguments" = .str s)
    (hloads : loads s = none) (env : Env) (st : PState) :
    process_call env st c = .ok (toolTry env st nm (.rawStr s) (pyGetD c "id")) ∧
    ∃ restEv, (toolTry env st nm (.rawStr s) (pyGetD c "id")).events =
      st.events ++ (Event.toolInvocation nm (.rawStr s)) :: restEv := by
  have h1 := process_call_eq hfn hnm env st
  have h2 : argValOf fn = .rawStr s := by simp [argValOf, hargs, hloads]
  rw [h2] at h1
  exact ⟨h1, toolTry_events_head env st nm (.rawStr s) (pyGetD c "id")⟩

/-- Witness for C7 (Scenario E): arguments `{invalid json`. -/
theorem c7_witness :
    process_call c7wEnv c7wST c7wCall =
      .ok (toolTry c7wEnv c7wST (.str "toolC") (.rawStr "\x7binvalid json")
        (pyGetD c7wCall "id")) ∧
    ∃ restEv, (toolTry c7wEnv c7wST (.str "toolC")
        (.rawStr "\x7binvalid json") (pyGetD c7wCall "id")).events =
      c7wST.events ++
        (Event.toolInvocation (.str "toolC") (.rawStr "\x7binvalid json")) ::
          restEv :=
  @c7_parse_fallback c7wCall
    (.obj [("name", .str "toolC"), ("arguments", .str "\x7binvalid json")])
    (.str "toolC") "\x7binvalid json" rfl rfl rfl rfl c7wEnv c7wST

/-- Counterexample for C9 as stated: when the completion endpoint returns
a truthy non-string `content` (here the number `1`), that value is
appended to `final_text` and the final `"\n".join(final_text)` — which
runs outside the `try`/`except` — raises `TypeError`, so `process_query`
does raise to its caller for this collaborator behaviour. -/
theorem c9_counterexample :
    (process_query c9cexEnv "q").output =
      .error "TypeError: sequence item: expected str instance" := rfl

/-- C9 amended: provided every truthy `content` value of the initial
completion is a string, `process_query` never raises: for every
behaviour of the collaborators it returns the newline-join of the
accumulated transcript lines (all of which are strings).  The string
hypothesis is needed exactly because of the counterexample above; every
other transcript entry is built by an f-string and is always a string. -/
theorem c9_no_raise {env : Env} {q : String}
    (hcontent : ∀ body msg cv, env.initialCompletion = .responds 200 body →
      extractMsg body = .ok msg → contentOf msg = .ok cv → truthy cv = true →
      ∃ s, cv = .str s) :
    ∃ lines, (process_query env q).output = .ok (String.intercalate "\n" lines) ∧
      (process_query env q).entries = lines.map Json.str := by
  cases hlt : env.listTools with
  | error e =>
    have hpe : process_query env q = finishRun
        { finalText := [], messages := [userTurn q], events := [],
          invCount := 0, fuCount := 0 } (some e) := by
      simp [process_query, hlt]
    rw [hpe]
    refine finishRun_allStr ?_ _
    rfl
  | ok ts =>
    cases hic : env.initialCompletion with
    | raises e =>
      have hpe : process_query env q = finishRun
          { finalText := [], messages := [userTurn q],
            events := [.completionRequest [userTurn q] true],
            invCount := 0, fuCount := 0 } (some e) := by
        simp [process_query, hlt, hic, PState.pushEvent]
      rw [hpe]
      refine finishRun_allStr ?_ _
      rfl
    | responds status body =>
      by_cases hs : status = 200
      · subst hs
        cases hmsg : extractMsg body with
        | error e =>
          have hpe : process_query env q = finishRun
              { finalText := [], messages := [userTurn q],
                events := [.completionRequest [userTurn q] true],
                invCount := 0, fuCount := 0 } (some e) := by
            simp [process_query, hlt, hic, hmsg, PState.pushEvent]
          rw [hpe]
          refine finishRun_allStr ?_ _
          rfl
        | ok msg =>
          cases hcv : contentOf msg with
          | error e =>
            have hpe : process_query env q = finishRun
                { finalText := [], messages := [userTurn q],
                  events := [.completionRequest [userTurn q] true],
                  invCount := 0, fuCount := 0 } (some e) := by
              simp [process_query, hlt, hic, hmsg, hcv, PState.pushEvent]
            rw [hpe]
            refine finishRun_allStr ?_ _
            rfl
          | ok cv =>
            by_cases htr : truthy cv = true
            · obtain ⟨s, hcvs⟩ := hcontent body msg cv hic hmsg hcv htr
              subst hcvs
              cases htc : toolCallsOf msg with
              | error e =>
                have hpe : process_query env q = finishRun
                    { finalText := [.str s], messages := [userTurn q],
                      events := [.completionRequest [userTurn q] true],
                      invCount := 0, fuCount := 0 } (some e) := by
                  simp [process_query, hlt, hic, hmsg, hcv, htc, htr,
                    PState.pushEvent, PState.pushText]
                rw [hpe]
                refine finishRun_allStr ?_ _
                rfl
              | ok tcV =>
                cases hit : pyIter tcV with
                | error e =>
                  have hpe : process_query env q = finishRun
                      { finalText := [.str s], messages := [userTurn q],
                        events := [.completionRequest [userTurn q] true],
                        invCount := 0, fuCount := 0 } (some e) := by
                    simp [process_query, hlt, hic, hmsg, hcv, htc, hit, htr,
                      PState.pushEvent, PState.pushText]
                  rw [hpe]
                  refine finishRun_allStr ?_ _
                  rfl
                | ok calls =>
                  have hpe : process_query env q =
                      finishRun (process_calls env
                        { finalText := [.str s], messages := [userTurn q],
                          events := [.completionRequest [userTurn q] true],
                          invCount := 0, fuCount := 0 } calls).1
                        (process_calls env
                        { finalText := [.str s], messages := [userTurn q],
                          events := [.completionRequest [userTurn q] true],
                          invCount := 0, fuCount := 0 } calls).2 := by
                    simp [process_query, hlt, hic, hmsg, hcv, htc, hit, htr,
                      PState.pushEvent, PState.pushText]
                  rw [hpe]
                  refine finishRun_allStr ?_ _
                  refine process_calls_allStr env calls _ ?_
                  rfl
            · have htr2 : truthy cv = false := by
                cases htt : truthy cv
                · rfl
                · exact absurd htt htr
              cases htc : toolCallsOf msg with
              | error e =>
                have hpe : process_query env q = finishRun
                    { finalText := [], messages := [userTurn q],
                      events := [.completionRequest [userTurn q] true],
                      invCount := 0, fuCount := 0 } (some e) := by
                  simp [process_query, hlt, hic, hmsg, hcv, htc, htr2,
                    PState.pushEvent, PState.pushText]
                rw [hpe]
                refine finishRun_allStr ?_ _
                rfl
              | ok tcV =>
                cases hit : pyIter tcV with
                | error e =>
                  have hpe : process_query env q = finishRun
                      { finalText := [], messages := [userTurn q],
                        events := [.completionRequest [userTurn q] true],
                        invCount := 0, fuCount := 0 } (some e) := by
                    simp [process_query, hlt, hic, hmsg, hcv, htc, hit, htr2,
                      PState.pushEvent, PState.pushText]
                  rw [hpe]
                  refine finishRun_allStr ?_ _
                  rfl
                | ok calls =>
                  have hpe : process_query env q =
                      finishRun (process_calls env
                        { finalText := [], messages := [userTurn q],
                          events := [.completionRequest [userTurn q] true],
                          invCount := 0, fuCount := 0 } calls).1
                        (process_calls env
                        { finalText := [], messages := [userTurn q],
                          events := [.completionRequest [userTurn q] true],
                          invCount := 0, fuCount := 0 } calls).2 := by
                    simp [process_query, hlt, hic, hmsg, hcv, htc, hit, htr2,
                      PState.pushEvent, PState.pushText]
                  rw [hpe]
                  refine finishRun_allStr ?_ _
                  refine process_calls_allStr env calls _ ?_
                  rfl
      · have hpe : process_query env q = finishRun
            { finalText := [], messages := [userTurn q],
              events := [.completionRequest [userTurn q] true],
              invCount := 0, fuCount := 0 } (some (groqErrMsg body)) := by
          simp [process_query, hlt, hic, hs, PState.pushEvent]
        rw [hpe]
        refine finishRun_allStr ?_ _
        rfl

/-- Witness for the amended C9: a run with a raising tool still returns
a joined transcript. -/
theorem c9_witness :
    ∃ lines, (process_query c9wEnv "q").output =
        .ok (String.intercalate "\n" lines) ∧
      (process_query c9wEnv "q").entries = lines.map Json.str :=
  c9_no_raise (by
    intro body msg cv hic hmsg hcv htr
    simp only [c9wEnv] at hic
    cases hic
    cases hmsg
    cases hcv
    exact ⟨"fine", rfl⟩)

theorem except_bind_ok_shape {α β : Type} {m : Except PyExn α}
    {f : α → Except PyExn β} {b : β} (h : (m >>= f) = .ok b) :
    ∃ a, m = .ok a ∧ f a = .ok b := by
  cases m with
  | error e => simp [Bind.bind, Except.bind] at h
  | ok a => exact ⟨a, rfl, by simpa [Bind.bind, Except.bind] using h⟩

theorem list_patients_spec (P : Json) :
    ((list_patients_tool P).error = false →
      ∃ j, (list_patients_tool P).content = dumps j ∧
        loads (list_patients_tool P).content = some j) ∧
    ((list_patients_tool P).error = true →
      ¬ (list_patients_tool P).content = "") := by
  unfold list_patients_tool
  dsimp only
  split
  next s heq =>
    constructor
    · intro _
      obtain ⟨pts, hp, h2⟩ := except_bind_ok_shape heq
      obtain ⟨entries, hm, h3⟩ := except_bind_ok_shape h2
      simp only [pure, Except.pure, Except.ok.injEq] at h3
      subst h3
      exact ⟨_, rfl, loads_dumps _⟩
    · intro h; cases h
  next e heq =>
    constructor
    · intro h; cases h
    · intro _; exact append_ne_empty e (by decide)

theorem fetch_patient_spec (P : Json) (pid : String) :
    (pid = "" → fetch_patient_data_tool P pid =
      ⟨"Missing required patient_id", true⟩) ∧
    ((fetch_patient_data_tool P pid).error = false →
      ∃ j, (fetch_patient_data_tool P pid).content = dumps j ∧
        loads (fetch_patient_data_tool P pid).content = some j) ∧
    ((fetch_patient_data_tool P pid).error = true →
      ¬ (fetch_patient_data_tool P pid).content = "") := by
  by_cases hpid : pid = ""
  · subst hpid
    refine ⟨fun _ => rfl, ?_, ?_⟩
    · intro h; cases h
    · intro _; simp [fetch_patient_data_tool]
  · have hne : ¬ ("Patient " ++ pid) = "" := append_ne_empty pid (by decide)
    have hnf : ¬ ("Patient " ++ pid ++ " not found") = "" :=
      append_ne_empty " not found" hne
    unfold fetch_patient_data_tool
    rw [if_neg hpid]
    dsimp only
    split
    next r heq =>
      refine ⟨fun h => absurd h hpid, ?_, ?_⟩
      · intro hr
        obtain ⟨pts, hp, h2⟩ := except_bind_ok_shape heq
        obtain ⟨p?, hf, h3⟩ := except_bind_ok_shape h2
        cases p? with
        | none =>
          dsimp only at h3
          simp only [pure, Except.pure, Except.ok.injEq] at h3
          rw [← h3] at hr
          cases hr
        | some p =>
          dsimp only at h3
          by_cases htp : truthy p = true
          · rw [if_pos htp] at h3
            simp only [pure, Except.pure, Except.ok.injEq] at h3
            subst h3
            exact ⟨p, rfl, loads_dumps p⟩
          · rw [if_neg htp] at h3
            simp only [pure, Except.pure, Except.ok.injEq] at h3
            rw [← h3] at hr
            cases hr
      · intro hr
        obtain ⟨pts, hp, h2⟩ := except_bind_ok_shape heq
        obtain ⟨p?, hf, h3⟩ := except_bind_ok_shape h2
        cases p? with
        | none =>
          dsimp only at h3
          simp only [pure, Except.pure, Except.ok.injEq] at h3
          rw [← h3]
          exact hnf
        | some p =>
          dsimp only at h3
          by_cases htp : truthy p = true
          · rw [if_pos htp] at h3
            simp only [pure, Except.pure, Except.ok.injEq] at h3
            rw [← h3] at hr
            cases hr
          · rw [if_neg htp] at h3
            simp only [pure, Except.pure, Except.ok.injEq] at h3
            rw [← h3]
            exact hnf
    next e heq =>
      refine ⟨fun h => absurd h hpid, ?_, ?_⟩
      · intro h; cases h
      · intro _; exact append_ne_empty e (by decide)

theorem check_interactions_spec (M : Json) (meds : List String) :
    (meds = [] → check_medication_interactions_tool M meds =
      ⟨"Invalid medications list format", true⟩) ∧
    ((check_medication_interactions_tool M meds).error = false →
      ∃ j, (check_medication_interactions_tool M meds).content = dumps j ∧
        loads (check_medication_interactions_tool M meds).content = some j) ∧
    ((check_medication_interactions_tool M meds).error = true →
      ¬ (check_medication_interactions_tool M meds).content = "") := by
  by_cases hm : meds.isEmpty
  · have hmeq : meds = [] := by
      cases meds
      · rfl
      · simp [List.isEmpty] at hm
    subst hmeq
    refine ⟨fun _ => rfl, ?_, ?_⟩
    · intro h; cases h
    · intro _; simp [check_medication_interactions_tool]
  · unfold check_medication_interactions_tool
    rw [if_neg hm]
    dsimp only
    split
    next s heq =>
      refine ⟨fun h => absurd (by simp [h, List.isEmpty]) hm, ?_, ?_⟩
      · intro _
        obtain ⟨ints, hbi, h2⟩ := except_bind_ok_shape heq
        simp only [pure, Except.pure, Except.ok.injEq] at h2
        subst h2
        exact ⟨_, rfl, loads_dumps _⟩
      · intro h; cases h
    next e heq =>
      refine ⟨fun h => absurd (by simp [h, List.isEmpty]) hm, ?_, ?_⟩
      · intro h; cases h
      · intro _; exact append_ne_empty e (by decide)

theorem get_guidelines_spec (G : Json) (cond : String) :
    (cond = "" → get_clinical_guidelines_tool G cond =
      ⟨"Missing required condition", true⟩) ∧
    ((get_clinical_guidelines_tool G cond).error = false →
      ∃ j, (get_clinical_guidelines_tool G cond).content = dumps j ∧
        loads (get_clinical_guidelines_tool G cond).content = some j) ∧
    ((get_clinical_guidelines_tool G cond).error = true →
      ¬ (get_clinical_guidelines_tool G cond).content = "") := by
  by_cases hc : cond = ""
  · subst hc
    refine ⟨fun _ => rfl, ?_, ?_⟩
    · intro h; cases h
    · intro _; simp [get_clinical_guidelines_tool]
  · have hne : ¬ ("No guidelines found for " ++ cond) = "" :=
      append_ne_empty cond (by decide)
    unfold get_clinical_guidelines_tool
    rw [if_neg hc]
    dsimp only
    split
    next r heq =>
      refine ⟨fun h => absurd h hc, ?_, ?_⟩
      · intro hr
        obtain ⟨gs, hg, h2⟩ := except_bind_ok_shape heq
        obtain ⟨g?, hf, h3⟩ := except_bind_ok_shape h2
        cases g? with
        | none =>
          dsimp only at h3
          simp only [pure, Except.pure, Except.ok.injEq] at h3
          rw [← h3] at hr
          cases hr
        | some g =>
          dsimp only at h3
          by_cases htg : truthy g = true
          · rw [if_pos htg] at h3
            simp only [pure, Except.pure, Except.ok.injEq] at h3
            subst h3
            exact ⟨g, rfl, loads_dumps g⟩
          · rw [if_neg htg] at h3
            simp only [pure, Except.pure, Except.ok.injEq] at h3
            rw [← h3] at hr
            cases hr
      · intro hr
        obtain ⟨gs, hg, h2⟩ := except_bind_ok_shape heq
        obtain ⟨g?, hf, h3⟩ := except_bind_ok_shape h2
        cases g? with
        | none =>
          dsimp only at h3
          simp only [pure, Except.pure, Except.ok.injEq] at h3
          rw [← h3]
          exact hne
        | some g =>
          dsimp only at h3
          by_cases htg : truthy g = true
          · rw [if_pos htg] at h3
            simp only [pure, Except.pure, Except.ok.injEq] at h3
            rw [← h3] at hr
            cases hr
          · rw [if_neg htg] at h3
            simp only [pure, Except.pure, Except.ok.injEq] at h3
            rw [← h3]
            exact hne
    next e heq =>
      refine ⟨fun h => absurd h hc, ?_, ?_⟩
      · intro h; cases h
      · intro _; exact append_ne_empty e (by decide)

/-- C10 (confirmed): each of the four server tools is a total function
into `ToolResponse` (every internal exception of the translated bodies is
caught into an error response, so nothing escapes to the caller); a
missing/empty required argument or a lookup miss yields `error = true`
with a descriptive non-empty message, every error response carries a
non-empty message, and on success the content is a JSON-encoded string
(it parses back with `json.loads`). -/
theorem c10_server_tools (P M G : Json) (pid cond : String)
    (meds : List String) :
    (((list_patients_tool P).error = false →
      ∃ j, (list_patients_tool P).content = dumps j ∧
        loads (list_patients_tool P).content = some j) ∧
    ((list_patients_tool P).error = true →
      ¬ (list_patients_tool P).content = "")) ∧
    ((pid = "" → fetch_patient_data_tool P pid =
      ⟨"Missing required patient_id", true⟩) ∧
    ((fetch_patient_data_tool P pid).error = false →
      ∃ j, (fetch_patient_data_tool P pid).content = dumps j ∧
        loads (fetch_patient_data_tool P pid).content = some j) ∧
    ((fetch_patient_data_tool P pid).error = true →
      ¬ (fetch_patient_data_tool P pid).content = "")) ∧
    ((meds = [] → check_medication_interactions_tool M meds =
      ⟨"Invalid medications list format", true⟩) ∧
    ((check_medication_interactions_tool M meds).error = false →
      ∃ j, (check_medication_interactions_tool M meds).content = dumps j ∧
        loads (check_medication_interactions_tool M meds).content = some j) ∧
    ((check_medication_interactions_tool M meds).error = true →
      ¬ (check_medication_interactions_tool M meds).content = "")) ∧
    ((cond = "" → get_clinical_guidelines_tool G cond =
      ⟨"Missing required condition", true⟩) ∧
    ((get_clinical_guidelines_tool G cond).error = false →
      ∃ j, (get_clinical_guidelines_tool G cond).content = dumps j ∧
        loads (get_clinical_guidelines_tool G cond).content = some j) ∧
    ((get_clinical_guidelines_tool G cond).error = true →
      ¬ (get_clinical_guidelines_tool G cond).content = "")) ∧
    (∀ pts, pyIter P = .ok pts → findPatient pts pid = .ok none →
      ¬ pid = "" → fetch_patient_data_tool P pid =
        ⟨"Patient " ++ pid ++ " not found", true⟩) ∧
    (∀ gs, pyIter G = .ok gs → findGuideline gs cond = .ok none →
      ¬ cond = "" → get_clinical_guidelines_tool G cond =
        ⟨"No guidelines found for " ++ cond, true⟩) := by
  refine ⟨list_patients_spec P, fetch_patient_spec P pid,
    check_interactions_spec M meds, get_guidelines_spec G cond, ?_, ?_⟩
  · intro pts hp hf hpid
    unfold fetch_patient_data_tool
    rw [if_neg hpid]
    simp [hp, hf, Bind.bind, Except.bind, pure, Except.pure]
  · intro gs hg hf hc
    unfold get_clinical_guidelines_tool
    rw [if_neg hc]
    simp [hg, hf, Bind.bind, Except.bind, pure, Except.pure]

/-- Witness for C10: concrete dataset, an empty-argument error, a lookup
miss, and a JSON-encoded success. -/
theorem c10_witness :
    fetch_patient_data_tool c10pats "" =
      ⟨"Missing required patient_id", true⟩ ∧
    (∃ j, (list_patients_tool c10pats).content = dumps j ∧
      loads (list_patients_tool c10pats).content = some j) ∧
    fetch_patient_data_tool c10pats "PT-9999" =
      ⟨"Patient PT-9999 not found", true⟩ :=
  ⟨(c10_server_tools c10pats .null .null "" "" []).2.1.1 rfl,
   (c10_server_tools c10pats .null .null "" "" []).1.1 rfl,
   (c10_server_tools c10pats .null .null "PT-9999" "" []).2.2.2.2.1
     [.obj [("id", .str "PT-1001"), ("name", .str "Jane Doe")]] rfl rfl
     (by decide)⟩

